import Mathlib

/-!
Verification of the layered settings engine of Rancher Desktop
(`src/pkg/rancher-desktop/config/settings`), via a shallow embedding of the
TypeScript sources into Lean.

JavaScript values flowing through the settings engine are JSON-like trees;
we embed them as `JValue`.  A JavaScript property whose value is `undefined`
is represented as an absent key; `Option JValue` models a possibly-undefined
expression result.  Numbers are embedded as `Int` (the settings code only
manipulates integral values; the host-RAM floating point computation of
`getDefaultMemory` is abstracted behind the environment, see `Env`).
-/

/-- A JSON-like JavaScript value: the data manipulated by the settings code. -/
inductive JValue where
  | null : JValue
  | bool (b : Bool) : JValue
  | num (n : Int) : JValue
  | str (s : String) : JValue
  | arr (elems : List JValue) : JValue
  | obj (fields : List (String × JValue)) : JValue
deriving Repr

namespace JValue

/-- The empty object `\x7b\x7d`. -/
def emptyObj : JValue := .obj []

/-- Look up a key of an object field list (first binding wins, as in a real
JavaScript object, whose keys are unique). -/
def lookupField : List (String × JValue) → String → Option JValue
  | [], _ => none
  | (k, v) :: rest, key => if k = key then some v else lookupField rest key

/-- JavaScript property assignment `o[k] = v` on an object's field list:
replaces the first binding of `k` in place (JavaScript objects keep the key
position of an existing property), otherwise appends the new key. -/
def setFirst : List (String × JValue) → String → JValue → List (String × JValue)
  | [], key, v => [(key, v)]
  | (k, w) :: rest, key, v =>
    if k = key then (key, v) :: rest else (k, w) :: setFirst rest key v

/-- JavaScript `delete o[k]` on an object's field list. -/
def delField : List (String × JValue) → String → List (String × JValue)
  | [], _ => []
  | (k, v) :: rest, key => if k = key then rest else (k, v) :: delField rest key

/-- JavaScript truthiness. -/
def truthy : JValue → Bool
  | .null => false
  | .bool b => b
  | .num n => n ≠ 0
  | .str s => s ≠ ""
  | .arr _ => true
  | .obj _ => true

/-- `typeof v === 'object'` (true for objects, arrays and `null`). -/
def typeofObject : JValue → Bool
  | .null => true
  | .arr _ => true
  | .obj _ => true
  | _ => false

/-- `typeof v === 'object' && v`: an object or array, excluding `null`. -/
def isObjectLike : JValue → Bool
  | .arr _ => true
  | .obj _ => true
  | _ => false

end JValue

mutual

/-- Lodash `_.isEqual` on JSON-like values: deep structural equality.
(Real `_.isEqual` additionally ignores the key order of objects; the
settings code only ever compares values built by the same iteration order,
so the structural comparison agrees with it on every compared pair.) -/
def jvEq : JValue → JValue → Bool
  | .null, .null => true
  | .bool a, .bool b => a == b
  | .num a, .num b => a == b
  | .str a, .str b => a == b
  | .arr as, .arr bs => jvEqList as bs
  | .obj as, .obj bs => jvEqFields as bs
  | _, _ => false

/-- Elementwise `jvEq` on arrays. -/
def jvEqList : List JValue → List JValue → Bool
  | [], [] => true
  | a :: as, b :: bs => jvEq a b && jvEqList as bs
  | _, _ => false

/-- Pointwise `jvEq` on object field lists. -/
def jvEqFields : List (String × JValue) → List (String × JValue) → Bool
  | [], [] => true
  | (k, a) :: as, (k2, b) :: bs => k == k2 && jvEq a b && jvEqFields as bs
  | _, _ => false

end

mutual

theorem jvEq_refl : ∀ a : JValue, jvEq a a = true
  | .null => rfl
  | .bool a => by simp [jvEq]
  | .num a => by simp [jvEq]
  | .str a => by simp [jvEq]
  | .arr as => by simp [jvEq, jvEqList_refl as]
  | .obj as => by simp [jvEq, jvEqFields_refl as]

theorem jvEqList_refl : ∀ as : List JValue, jvEqList as as = true
  | [] => rfl
  | a :: as => by simp [jvEqList, jvEq_refl a, jvEqList_refl as]

theorem jvEqFields_refl : ∀ as : List (String × JValue), jvEqFields as as = true
  | [] => rfl
  | (k, a) :: as => by simp [jvEqFields, jvEq_refl a, jvEqFields_refl as]

end

/-- JavaScript exceptions that the embedded code can raise.  `unmodelled`
marks JavaScript behaviours outside the JSON value model (e.g. expando
properties on arrays); no execution path exercised by a theorem below
reaches it. -/
inductive JsErr where
  | typeError (msg : String) : JsErr
  | thrown (msg : String) : JsErr
  | unmodelled (what : String) : JsErr
deriving Repr, DecidableEq

/-- Structural equivalent of `String.toNat?` (which folds over the string
with well-founded recursion): an all-digit, non-empty string parses to its
decimal value, anything else to `none`.  Lodash array access uses it for
index keys. -/
def digitsToNatAux : List Char → Nat → Option Nat
  | [], acc => some acc
  | c :: rest, acc =>
    if c.isDigit then digitsToNatAux rest (acc * 10 + (c.toNat - 48))
    else none

def strToNatDigits (s : String) : Option Nat :=
  match s.toList with
  | [] => none
  | c :: rest => digitsToNatAux (c :: rest) 0

namespace JValue

/-- JavaScript property read `base[key]` where `base` may be `undefined`
(`none`).  Reading a property of `undefined` or `null` throws a TypeError;
reading a missing property of any other value yields `undefined`. -/
def propGet (base : Option JValue) (key : String) : Except JsErr (Option JValue) :=
  match base with
  | none => .error (.typeError ("Cannot read properties of undefined (reading " ++ key ++ ")"))
  | some .null => .error (.typeError ("Cannot read properties of null (reading " ++ key ++ ")"))
  | some (.obj o) => .ok (lookupField o key)
  | some (.arr xs) =>
    if key = "length" then .ok (some (.num xs.length))
    else .ok ((strToNatDigits key).bind fun i => xs.get? i)
  | some (.str s) =>
    if key = "length" then .ok (some (.num s.length))
    else .ok ((strToNatDigits key).bind fun i => (s.toList.get? i).map fun c => .str (String.mk [c]))
  | some _ => .ok none

/-- JavaScript `key in base`: throws unless `base` is an object (or array). -/
def memberIn (base : Option JValue) (key : String) : Except JsErr Bool :=
  match base with
  | some (.obj o) => .ok (lookupField o key).isSome
  | some (.arr xs) =>
    .ok (key = "length" || ((strToNatDigits key).map fun i => decide (i < xs.length)).getD false)
  | _ => .error (.typeError ("Cannot use 'in' operator to search for " ++ key))

/-- JavaScript property write `base[key] = v` (strict mode): throws on
`undefined`/`null` and on primitives; expando properties on arrays are not
modelled. -/
def propSet (base : Option JValue) (key : String) (v : JValue) : Except JsErr JValue :=
  match base with
  | some (.obj o) => .ok (.obj (setFirst o key v))
  | some (.arr _) => .error (.unmodelled "expando property assignment on an array")
  | none => .error (.typeError ("Cannot set properties of undefined (setting " ++ key ++ ")"))
  | some .null => .error (.typeError ("Cannot set properties of null (setting " ++ key ++ ")"))
  | some _ => .error (.typeError ("Cannot create property " ++ key ++ " on a primitive"))

/-- JavaScript `delete base[key]` (no-op on primitives, throws on
`undefined`/`null`); returns the updated base. -/
def propDelete (base : Option JValue) (key : String) : Except JsErr JValue :=
  match base with
  | some (.obj o) => .ok (.obj (delField o key))
  | some (.arr xs) => .ok (.arr xs)
  | some v => .ok v
  | none => .error (.typeError ("Cannot convert undefined to object (deleting " ++ key ++ ")"))

mutual

/-- JavaScript string coercion (template-literal interpolation).  Array
elements are coerced recursively and joined with commas, `null` elements
becoming empty strings. -/
def jsToString : JValue → String
  | .null => "null"
  | .bool b => if b then "true" else "false"
  | .num n => toString n
  | .str s => s
  | .arr xs => String.intercalate "," (jsToStringElems xs)
  | .obj _ => "[object Object]"

/-- String coercion of array elements (see `jsToString`). -/
def jsToStringElems : List JValue → List String
  | [] => []
  | .null :: rest => "" :: jsToStringElems rest
  | v :: rest => jsToString v :: jsToStringElems rest

end

/-- Escape one character for a JSON string literal. -/
def jsonEscapeChar (c : Char) : String :=
  if c = '"' then "\\\""
  else if c = '\\' then "\\\\"
  else if c = '\n' then "\\n"
  else if c = '\t' then "\\t"
  else if c = '\r' then "\\r"
  else String.mk [c]

mutual

/-- `JSON.stringify` (on values without `undefined` members). -/
def jsonStringify : JValue → String
  | .null => "null"
  | .bool b => if b then "true" else "false"
  | .num n => toString n
  | .str s => "\"" ++ String.join (s.toList.map jsonEscapeChar) ++ "\""
  | .arr xs => "[" ++ String.intercalate "," (jsonStringifyElems xs) ++ "]"
  | .obj o => "\x7b" ++ String.intercalate "," (jsonStringifyFields o) ++ "\x7d"

/-- `JSON.stringify` of the elements of an array. -/
def jsonStringifyElems : List JValue → List String
  | [] => []
  | v :: rest => jsonStringify v :: jsonStringifyElems rest

/-- `JSON.stringify` of the fields of an object. -/
def jsonStringifyFields : List (String × JValue) → List String
  | [] => []
  | (k, v) :: rest =>
    ("\"" ++ String.join (k.toList.map jsonEscapeChar) ++ "\":" ++ jsonStringify v)
      :: jsonStringifyFields rest

end

end JValue

/-- JavaScript `parseInt(s, 10)`: skip leading whitespace, optional sign,
then the longest digit run; `none` models `NaN`. -/
def jsParseInt (s : String) : Option Int :=
  let chars := s.toList.dropWhile fun c => c = ' ' ∨ c = '\t' ∨ c = '\n' ∨ c = '\r'
  let (neg, digits) :=
    match chars with
    | '-' :: rest => (true, rest)
    | '+' :: rest => (false, rest)
    | rest => (false, rest)
  let run := digits.takeWhile Char.isDigit
  if run.isEmpty then none
  else
    let n : Int := run.foldl (fun acc c => acc * 10 + (c.toNat - '0'.toNat : Int)) 0
    some (if neg then -n else n)

/-- `ValidatorReturn` (types.ts): the result of validating proposed
settings. -/
structure ValidatorReturn where
  /-- Whether the settings would be changed. -/
  modified : Bool := false
  /-- Any errors that would result from the change. -/
  errors : List String := []
  /-- Whether any error is fatal. -/
  fatal : Bool := false
deriving Repr, DecidableEq

/-- `ValidatorReturn.merge` (types.ts): `modified ||= from.modified`,
`errors.push(...from.errors)`, `fatal ||= from.fatal`. -/
def ValidatorReturn.merge (a b : ValidatorReturn) : ValidatorReturn :=
  { modified := a.modified || b.modified
    errors := a.errors ++ b.errors
    fatal := a.fatal || b.fatal }

namespace JValue

mutual

/-- Lodash `_.merge(dst, src)`: recursively merges own properties of `src`
into `dst`.  Plain objects and arrays are merged recursively; every other
source value (including `null`) is assigned.  A non-container source
contributes nothing, matching `_.merge(x, 5) = x`. -/
def lmergeInto (dst src : JValue) : JValue :=
  match dst, src with
  | .obj d, .obj s => .obj (lmergeFields d s)
  | .arr d, .arr s => .arr (lmergeElems d s)
  | .obj d, .arr s => .obj (lmergeIndexed d 0 s)
  | d, _ => d
termination_by structural src

/-- Merge the source fields into destination fields, left to right. -/
def lmergeFields (d : List (String × JValue)) : List (String × JValue) →
    List (String × JValue)
  | [] => d
  | (k, sv) :: rest => lmergeFields (lmergeField d k sv) rest
termination_by structural s => s

/-- Merge a single source property: recurse when both sides are objects or
both are arrays, otherwise assign the source value. -/
def lmergeField (d : List (String × JValue)) (k : String) (sv : JValue) :
    List (String × JValue) :=
  match lookupField d k, sv with
  | some (.obj o), .obj s => setFirst d k (.obj (lmergeFields o s))
  | some (.arr a), .arr s => setFirst d k (.arr (lmergeElems a s))
  | _, _ => setFirst d k sv
termination_by structural sv

/-- Lodash merges arrays index by index; destination elements beyond the
source length are kept, source elements beyond the destination appended. -/
def lmergeElems : List JValue → List JValue → List JValue
  | d, [] => d
  | [], s => s
  | dv :: d, sv :: s => lmergeInto dv sv :: lmergeElems d s
termination_by structural _ s => s

/-- An array source merged into an object destination contributes its
elements under their index keys. -/
def lmergeIndexed (d : List (String × JValue)) (i : Nat) :
    List JValue → List (String × JValue)
  | [] => d
  | sv :: rest => lmergeIndexed (lmergeField d (toString i) sv) (i + 1) rest
termination_by structural s => s

end

/-- Lodash `_.merge(\x7b\x7d, a, b, ...)` over a list of sources. -/
def lmergeAll (sources : List JValue) : JValue :=
  sources.foldl lmergeInto emptyObj

/-- Lodash `_.get(value, path)` over an already-split key path: walks own
properties, yielding `undefined` (never throwing) if the path is absent or
crosses a non-container. -/
def lodashGetPath : JValue → List String → Option JValue
  | v, [] => some v
  | .obj o, k :: rest => (lookupField o k).bind fun w => lodashGetPath w rest
  | .arr xs, k :: rest =>
    ((strToNatDigits k).bind fun i => xs.get? i).bind fun w => lodashGetPath w rest
  | _, _ :: _ => none

/-- Lodash `_.has(value, path)` over an already-split key path. -/
def lodashHasPath : JValue → List String → Bool
  | _, [] => true
  | .obj o, k :: rest =>
    match lookupField o k with
    | some w => lodashHasPath w rest
    | none => false
  | .arr xs, k :: rest =>
    match (strToNatDigits k).bind fun i => xs.get? i with
    | some w => lodashHasPath w rest
    | none => false
  | _, _ :: _ => false

/-- Lodash `_.set(value, path, nv)` over an already-split key path; missing
or non-object intermediates are (re)created as objects, as lodash does for
non-index keys.  The settings code only ever uses non-numeric key paths. -/
def lodashSetPath : JValue → List String → JValue → JValue
  | v, [], _ => v
  | .obj o, [k], nv => .obj (setFirst o k nv)
  | .obj o, k :: k2 :: rest, nv =>
    let child :=
      match lookupField o k with
      | some (.obj o2) => .obj o2
      | _ => emptyObj
    .obj (setFirst o k (lodashSetPath child (k2 :: rest) nv))
  | v, _ :: _, _ => v

end JValue

/-- Split a dotted key's characters at the dots. -/
def splitKeyAux : List Char → List Char → List String
  | [], acc => [String.mk acc.reverse]
  | c :: rest, acc =>
    if c = '.' then String.mk acc.reverse :: splitKeyAux rest []
    else splitKeyAux rest (c :: acc)

/-- A dotted settings key such as `application.isFirstRun`, split into path
segments as lodash `toPath` does for dot-separated keys. -/
def splitKey (key : String) : List String := splitKeyAux key.toList []

/-- The host environment and the external collaborator modules consulted by
the settings code.  `platform`/`arch` model `os.platform()`/`os.arch()`;
`macOsVersion` models `getMacOsVersion()` as a semver triple;
`runningUnderARM64Translation` models `Electron.app.runningUnderARM64Translation`;
`defaultMemoryInGB` abstracts `getDefaultMemory()` (a floating-point
computation over `os.totalmem()`); `k8sVersions` is the validator instance's
known-versions list; `collatorCompare` models `Intl.Collator().compare`;
`validateImageName`/`validateImageTag`/`parseImageReference` model the
external `@pkg/utils/dockerUtils` module (absent from the sources), where
`parseImageReference` records the truthiness of the parse result;
`preferencesNavItems` models `@pkg/window/preferenceConstants` as pairs of a
nav item name and its optional tab list. -/
structure Env where
  platform : String
  arch : String
  macOsVersion : Int × Int × Int
  runningUnderARM64Translation : Bool
  defaultMemoryInGB : Int
  k8sVersions : List String
  collatorCompare : String → String → Int
  validateImageName : String → Bool
  validateImageTag : String → Bool
  parseImageReference : String → Bool
  preferencesNavItems : List (String × Option (List String))

/-- `semver.gt(a, b)` on version triples. -/
def semverGt (a b : Int × Int × Int) : Bool :=
  a.1 > b.1 || (a.1 = b.1 && (a.2.1 > b.2.1 || (a.2.1 = b.2.1 && a.2.2 > b.2.2)))

namespace RdEnum

/- The string values of the enums declared in defaults.ts. -/

def VMType.QEMU : String := "qemu"
def VMType.VZ : String := "vz"
def VMType.values : List String := ["qemu", "vz"]

def ContainerEngine.NONE : String := ""
def ContainerEngine.CONTAINERD : String := "containerd"
def ContainerEngine.MOBY : String := "moby"

def MountType.NINEP : String := "9p"
def MountType.REVERSE_SSHFS : String := "reverse-sshfs"
def MountType.VIRTIOFS : String := "virtiofs"
def MountType.values : List String := ["9p", "reverse-sshfs", "virtiofs"]

def ProtocolVersion.values : List String := ["9p2000", "9p2000.u", "9p2000.L"]

def SecurityModel.values : List String :=
  ["passthrough", "mapped-xattr", "mapped-file", "none"]

def CacheMode.values : List String := ["none", "loose", "fscache", "mmap"]

/-- Modelled from the spec: the `PathManagementStrategy` enum lives in the
external `@pkg/integrations/pathManager` module, which is absent from the
sources; its members (`Manual`, `RcFiles`) are abstracted here as opaque
string values, which is all the settings code observes of them. -/
def PathManagementStrategy.Manual : String := "manual"

/-- Modelled from the spec: see `PathManagementStrategy.Manual`. -/
def PathManagementStrategy.RcFiles : String := "rcfiles"

/-- Modelled from the spec: see `PathManagementStrategy.Manual`. -/
def PathManagementStrategy.values : List String := ["manual", "rcfiles"]

end RdEnum

/-- `defaultSettings` (defaults.ts): the Hard-Defaults settings tree.
Environment-dependent leaves (`pathManagementStrategy`, `memoryInGB`) are
computed from `env` exactly as the module initializer does. -/
def defaultSettings (env : Env) : JValue :=
  .obj [
    ("application", .obj [
      ("adminAccess", .bool false),
      ("debug", .bool false),
      ("extensions", .obj [
        ("allowed", .obj [
          ("enabled", .bool false),
          ("list", .arr [])]),
        ("installed", .obj [])]),
      ("pathManagementStrategy",
        .str (if env.platform = "win32" then RdEnum.PathManagementStrategy.Manual
              else RdEnum.PathManagementStrategy.RcFiles)),
      ("telemetry", .obj [("enabled", .bool true)]),
      ("updater", .obj [("enabled", .bool true)]),
      ("autoStart", .bool false),
      ("startInBackground", .bool false),
      ("hideNotificationIcon", .bool false),
      ("window", .obj [("quitOnClose", .bool false)])]),
    ("containerEngine", .obj [
      ("allowedImages", .obj [
        ("enabled", .bool false),
        ("patterns", .arr [])]),
      ("name", .str RdEnum.ContainerEngine.MOBY)]),
    ("virtualMachine", .obj [
      ("memoryInGB", .num env.defaultMemoryInGB),
      ("numberCPUs", .num 2),
      ("hostResolver", .bool true)]),
    ("WSL", .obj [("integrations", .obj [])]),
    ("kubernetes", .obj [
      ("version", .str ""),
      ("port", .num 6443),
      ("enabled", .bool true),
      ("options", .obj [("traefik", .bool true), ("flannel", .bool true)]),
      ("ingress", .obj [("localhostOnly", .bool false)])]),
    ("portForwarding", .obj [("includeKubernetesServices", .bool false)]),
    ("images", .obj [
      ("showAll", .bool true),
      ("namespace", .str "k8s.io")]),
    ("diagnostics", .obj [
      ("showMuted", .bool false),
      ("mutedChecks", .obj [])]),
    ("experimental", .obj [
      ("virtualMachine", .obj [
        ("type", .str RdEnum.VMType.QEMU),
        ("useRosetta", .bool false),
        ("socketVMNet", .bool false),
        ("mount", .obj [
          ("type", .str RdEnum.MountType.REVERSE_SSHFS),
          ("9p", .obj [
            ("securityModel", .str "none"),
            ("protocolVersion", .str "9p2000.L"),
            ("msizeInKib", .num 128),
            ("cacheMode", .str "mmap")])]),
        ("networkingTunnel", .bool false),
        ("proxy", .obj [
          ("enabled", .bool false),
          ("address", .str ""),
          ("password", .str ""),
          ("port", .num 3128),
          ("username", .str ""),
          ("noproxy", .arr [
            .str "0.0.0.0/8", .str "10.0.0.0/8", .str "127.0.0.0/8",
            .str "169.254.0.0/16", .str "172.16.0.0/12", .str "192.168.0.0/16",
            .str "224.0.0.0/4", .str "240.0.0.0/4"])])])])]

/-- Modelled from the spec: the Hard-Defaults layer's `get` accessor, which
`canonicalizeSettings` (userValidator.ts) consults with an array-shaped key
(\"determined by consulting Hard-Defaults\").  The revision of defaults.ts in
the sources wraps `defaultSettings` in a read-only proxy without a `get`
method, so the accessor used by the named userValidator.ts is not in the
sources; per the spec it simply reads the default value at the given path. -/
def settingsLayerDefaultsGet (env : Env) (path : List String) : Option JValue :=
  JValue.lodashGetPath (defaultSettings env) path

/-- `defaultTransientSettings` (transient.ts).  `application.debug` is
declared as `undefined` in the source and is therefore an absent key here. -/
def defaultTransientSettings (env : Env) : JValue :=
  .obj [
    ("application", .obj [("isFirstRun", .bool false)]),
    ("noModalDialogs", .bool false),
    ("preferences", .obj [
      ("navItem", .obj [
        ("current", .str "Application"),
        ("currentTabs", .obj (
          [("Application", JValue.str "general"),
           ("Virtual Machine", JValue.str "hardware"),
           ("Container Engine", JValue.str "general")] ++
          (if env.platform = "win32" then [("WSL", JValue.str "integration")]
           else [])))])])]

/-- `navItemNames` (transient.ts). -/
def navItemNames : List String :=
  ["Application", "WSL", "Virtual Machine", "Container Engine", "Kubernetes"]

/-- A rule function (`ValidatorFunc`), taking the merged settings, the
current value (possibly `undefined`), the desired value and the fully
qualified name. -/
def RuleFn : Type :=
  JValue → Option JValue → JValue → String → Except JsErr ValidatorReturn

/-- One entry of a `SettingsValidationMap`: either a validator function or a
nested map — the tagged representation of the source's duck-typed
function-or-object dispatch.  The walker branches that handle a map entry
which is neither (`should be a simple value` / the trailing `notSupported`)
are unreachable for the maps defined in the sources and have no
counterpart here. -/
inductive RuleEntry where
  | leaf (f : RuleFn) : RuleEntry
  | node (entries : List (String × RuleEntry)) : RuleEntry

/-- Look up a rule-map key (`allowedSettings[k]`). -/
def lookupRule : List (String × RuleEntry) → String → Option RuleEntry
  | [], _ => none
  | (k, e) :: rest, key => if k = key then some e else lookupRule rest key

/-- `BaseValidator.notSupported` (validator.ts). -/
def notSupportedMsg (fqname : String) : String :=
  "Changing field \"" ++ fqname ++ "\" via the API isn't supported."

/-- `BaseValidator.invalidSettingMessage` (validator.ts). -/
def invalidSettingMessage (fqname : String) (desired : JValue) : String :=
  "Invalid value for \"" ++ fqname ++ "\": <" ++ JValue.jsonStringify desired ++ ">"

/-- The deep-equal guard `_.isEqual(currentSettings[k], newSettings[k])`
with a possibly-undefined current value. -/
def eqGuard (cur : Option JValue) (des : JValue) : Bool :=
  match cur with
  | some cv => jvEq cv des
  | none => false

/-- The trailing `retval.modified &&= retval.errors.length === 0` of
`checkProposedSettings`. -/
def finishRetval (r : ValidatorReturn) : ValidatorReturn :=
  { r with modified := r.modified && r.errors.isEmpty }

/-- The `should wrap an inner object` message of the walker. -/
def wrapInnerObjectMsg (fqname : String) (newV : JValue) : String :=
  "Setting \"" ++ fqname ++ "\" should wrap an inner object, but got <"
    ++ newV.jsToString ++ ">."

mutual

/-- `BaseValidator.checkProposedSettings` (validator.ts): the core walk of
the proposed settings against a verifier map.  `current` is the current
subtree, which becomes `undefined` below paths the current tree does not
populate — reading a key of it then throws, as in the source.  The final
`retval.modified &&= retval.errors.length === 0` of the source is the
`finishRetval` step.  A `for...in` loop over a primitive (which JavaScript
only reaches when the caller passes a primitive as the proposal root, never
on recursion) is modelled as iterating nothing. -/
def checkProposedSettings (merged : JValue) (allowed : List (String × RuleEntry))
    (current : Option JValue) (news : JValue) (pfx : String) :
    Except JsErr ValidatorReturn :=
  match news with
  | .obj o => do
    let acc ← cpsFields merged allowed current o pfx {}
    .ok (finishRetval acc)
  | .arr xs => do
    let acc ← cpsElems merged allowed current 0 xs pfx {}
    .ok (finishRetval acc)
  | _ => .ok (finishRetval {})
termination_by structural news

/-- The walker's loop over the fields of a proposed object; the body is
one iteration of the source's `for (const k in newSettings)` loop. -/
def cpsFields (merged : JValue) (allowed : List (String × RuleEntry))
    (current : Option JValue) (entries : List (String × JValue)) (pfx : String)
    (acc : ValidatorReturn) : Except JsErr ValidatorReturn :=
  match entries with
  | [] => .ok acc
  | (k, newV) :: rest => do
    let fqname := if pfx = "" then k else pfx ++ "." ++ k
    let acc ←
      match lookupRule allowed k with
      | none =>
        .ok { acc with errors := acc.errors ++ [notSupportedMsg fqname] }
      | some (.node sub) =>
        if newV.typeofObject then do
          let curK ← JValue.propGet current k
          let r ← checkProposedSettings merged sub curK newV fqname
          .ok (acc.merge r)
        else
          .ok { acc with errors := acc.errors ++ [wrapInnerObjectMsg fqname newV] }
      | some (.leaf f) => do
        let curK ← JValue.propGet current k
        if eqGuard curK newV then
          .ok acc
        else do
          let r ← f merged curK newV fqname
          .ok (acc.merge r)
    cpsFields merged allowed current rest pfx acc
termination_by structural entries

/-- The walker's loop over a proposed array (JavaScript `for...in`
enumerates its index keys); the body mirrors `cpsFields` with the index
string as the key. -/
def cpsElems (merged : JValue) (allowed : List (String × RuleEntry))
    (current : Option JValue) (i : Nat) (elems : List JValue) (pfx : String)
    (acc : ValidatorReturn) : Except JsErr ValidatorReturn :=
  match elems with
  | [] => .ok acc
  | newV :: rest => do
    let k := toString i
    let fqname := if pfx = "" then k else pfx ++ "." ++ k
    let acc ←
      match lookupRule allowed k with
      | none =>
        .ok { acc with errors := acc.errors ++ [notSupportedMsg fqname] }
      | some (.node sub) =>
        if newV.typeofObject then do
          let curK ← JValue.propGet current k
          let r ← checkProposedSettings merged sub curK newV fqname
          .ok (acc.merge r)
        else
          .ok { acc with errors := acc.errors ++ [wrapInnerObjectMsg fqname newV] }
      | some (.leaf f) => do
        let curK ← JValue.propGet current k
        if eqGuard curK newV then
          .ok acc
        else do
          let r ← f merged curK newV fqname
          .ok (acc.merge r)
    cpsElems merged allowed current (i + 1) rest pfx acc
termination_by structural elems

end

/-- Chained property reads `root.k1.k2…` (each step may throw). -/
def chainGet (root : JValue) (path : List String) : Except JsErr (Option JValue) :=
  path.foldlM (fun base k => JValue.propGet base k) (some root)

/-- JavaScript truthiness of a possibly-undefined value. -/
def truthyOpt : Option JValue → Bool
  | some v => v.truthy
  | none => false

/-- `Object.keys(v)` for a possibly-undefined value: throws on `undefined`
and `null`, yields index keys for arrays and strings, and nothing for other
primitives. -/
def jsObjectKeys (v : Option JValue) : Except JsErr (List String) :=
  match v with
  | none => .error (.typeError "Cannot convert undefined or null to object")
  | some .null => .error (.typeError "Cannot convert undefined or null to object")
  | some (.obj o) => .ok (o.map Prod.fst)
  | some (.arr xs) => .ok ((List.range xs.length).map toString)
  | some (.str s) => .ok ((List.range s.length).map toString)
  | some _ => .ok []

/-- `Object.entries(v)` for a defined value (same conversions as
`jsObjectKeys`). -/
def jsObjectEntries (v : JValue) : Except JsErr (List (String × JValue)) :=
  match v with
  | .null => .error (.typeError "Cannot convert undefined or null to object")
  | .obj o => .ok o
  | .arr xs => .ok (xs.enum.map fun p => (toString p.1, p.2))
  | .str s => .ok (s.toList.enum.map fun p => (toString p.1, JValue.str (String.mk [p.2])))
  | _ => .ok []

/-- JavaScript strict equality `a === b` between possibly-undefined values.
Objects and arrays compare by reference in JavaScript; the settings code
only ever strict-compares values originating from distinct trees, so two
container operands are never the same reference and compare unequal. -/
def jsStrictEq : Option JValue → Option JValue → Bool
  | none, none => true
  | some .null, some .null => true
  | some (.bool a), some (.bool b) => a == b
  | some (.num a), some (.num b) => a == b
  | some (.str a), some (.str b) => a == b
  | _, _ => false

/-- `_.isEqual` between possibly-undefined values. -/
def jvEqOpt : Option JValue → Option JValue → Bool
  | none, none => true
  | some a, some b => jvEq a b
  | _, _ => false

/-- The whitespace test `/^\s*$/.test(member)` of `findDuplicates`. -/
def isWhiteSpaceOnly (s : String) : Bool :=
  s.toList.all fun c =>
    c = ' ' || c = '\t' || c = '\n' || c = '\r' || c = '\x0b' || c = '\x0c'

/-- The loop of `UserSettingsValidator.findDuplicates` (userValidator.ts):
`first` is the `firstInstance` set, `dups` the `duplicates` set (a
JavaScript `Set` keeps first-insertion order), `ws` the
`whiteSpaceMembers` list. -/
def findDuplicatesLoop :
    List String → List String → List String → List String →
    List String × List String
  | [], _, dups, ws => (dups, ws)
  | m :: rest, first, dups, ws =>
    if isWhiteSpaceOnly m then
      findDuplicatesLoop rest first dups (ws ++ [m])
    else if !first.contains m then
      findDuplicatesLoop rest (first ++ [m]) dups ws
    else if dups.contains m then
      findDuplicatesLoop rest first dups ws
    else
      findDuplicatesLoop rest first (dups ++ [m]) ws

/-- `UserSettingsValidator.findDuplicates` (userValidator.ts): duplicates
by case-sensitive exact match, with whitespace-only members collected
separately and tolerated when there is exactly one of them. -/
def findDuplicates (list : List String) : List String :=
  let (dups, ws) := findDuplicatesLoop list [] [] []
  let ws := if ws.length = 1 then [] else ws
  dups ++ ws

/-- Insert for `jsSortBy`. -/
def jsSortInsert (cmp : String → String → Int) (x : String) :
    List String → List String
  | [] => [x]
  | y :: ys => if cmp x y ≤ 0 then x :: y :: ys else y :: jsSortInsert cmp x ys

/-- `Array.prototype.sort(cmp)`: a stable sort by the comparator (V8 uses a
stable sort), modelled as insertion sort. -/
def jsSortBy (cmp : String → String → Int) (l : List String) : List String :=
  l.foldr (jsSortInsert cmp) []

/-- JavaScript `v === 'lit'` for a defined value. -/
def strictEqStr (v : JValue) (lit : String) : Bool :=
  match v with
  | .str t => t == lit
  | _ => false

/-- JavaScript `v === 'lit'` for a possibly-undefined value. -/
def strictEqStrOpt (v : Option JValue) (lit : String) : Bool :=
  match v with
  | some (.str t) => t == lit
  | _ => false

/-- `BaseValidator.checkBoolean` (validator.ts). -/
def checkBoolean : RuleFn := fun _ _ des fq =>
  match des with
  | .bool _ => .ok { modified := true }
  | _ => .ok { errors := [invalidSettingMessage fq des] }

/-- `BaseValidator.checkNumber(min, max)` (validator.ts); `max := none`
embeds the call sites that pass `Number.POSITIVE_INFINITY`. -/
def checkNumber (min : Int) (max : Option Int) : RuleFn := fun _ _ des fq =>
  match des with
  | .num n =>
    if n < min then .ok { errors := [invalidSettingMessage fq des] }
    else match max with
      | some m =>
        if n > m then .ok { errors := [invalidSettingMessage fq des] }
        else .ok { modified := true }
      | none => .ok { modified := true }
  | _ => .ok { errors := [invalidSettingMessage fq des] }

/-- `BaseValidator.checkEnum(...validValues)` (validator.ts): enum
rejection is fatal, type rejection is not. -/
def checkEnum (validValues : List String) : RuleFn := fun _ _ des fq =>
  let explanation :=
    "must be one of " ++ JValue.jsonStringify (.arr (validValues.map JValue.str))
  match des with
  | .str s =>
    if validValues.contains s then .ok { modified := true }
    else .ok { errors := [invalidSettingMessage fq des ++ "; " ++ explanation]
               fatal := true }
  | _ => .ok { errors := [invalidSettingMessage fq des ++ "; " ++ explanation] }

/-- `BaseValidator.checkString` (validator.ts). -/
def checkString : RuleFn := fun _ _ des fq =>
  match des with
  | .str _ => .ok { modified := true }
  | _ => .ok { errors := [invalidSettingMessage fq des] }

/-- `BaseValidator.checkUnchanged` (validator.ts): always rejects. -/
def checkUnchanged : RuleFn := fun _ _ _ fq =>
  .ok { errors := [notSupportedMsg fq] }

/-- `BaseValidator.checkMulti(...validators)` (validator.ts). -/
def checkMulti (validators : List RuleFn) : RuleFn := fun merged cur des fq =>
  validators.foldlM
    (fun acc f => do
      let r ← f merged cur des fq
      pure (acc.merge r))
    ({} : ValidatorReturn)

/-- `UserSettingsValidator.checkLima` (userValidator.ts). -/
def checkLima (env : Env) (validator : RuleFn) : RuleFn := fun merged cur des fq =>
  if !(["darwin", "linux"].contains env.platform) then
    .ok { errors := [notSupportedMsg fq], fatal := true }
  else
    validator merged cur des fq

/-- `UserSettingsValidator.checkPlatform` (userValidator.ts). -/
def checkPlatform (env : Env) (platform : String) (validator : RuleFn) : RuleFn :=
  fun merged cur des fq =>
    if env.platform ≠ platform then
      .ok { errors := [notSupportedMsg fq], fatal := true }
    else
      validator merged cur des fq

/-- `UserSettingsValidator.check9P` (userValidator.ts). -/
def check9P (validator : RuleFn) : RuleFn := fun merged cur des fq => do
  let mt ← chainGet merged ["experimental", "virtualMachine", "mount", "type"]
  if !strictEqStrOpt mt RdEnum.MountType.NINEP then
    if !jvEqOpt cur (some des) then
      .ok { errors := ["Setting " ++ fq ++
              " can only be changed when experimental.virtualMachine.mount.type is \"9p\"."]
            fatal := true }
    else
      .ok {}
  else
    validator merged cur des fq

/-- `UserSettingsValidator.checkRosetta` (userValidator.ts). -/
def checkRosetta (env : Env) : RuleFn := fun merged cur des fq =>
  if des.truthy && !truthyOpt cur then do
    let vt ← chainGet merged ["experimental", "virtualMachine", "type"]
    if !strictEqStrOpt vt RdEnum.VMType.VZ then
      .ok { errors := ["Setting " ++ fq ++
              " can only be enabled when experimental.virtual-machine.type is \"vz\"."]
            fatal := true }
    else if !env.runningUnderARM64Translation && env.arch ≠ "arm64" then
      .ok { errors := ["Setting " ++ fq ++ " can only be enabled on aarch64 systems."]
            fatal := true }
    else
      .ok { modified := true }
  else
    .ok { modified := true }

/-- `UserSettingsValidator.checkVMType` (userValidator.ts). -/
def checkVMType (env : Env) : RuleFn := fun merged _ des fq =>
  if strictEqStr des RdEnum.VMType.VZ then
    if env.arch = "arm64" && semverGt (13, 3, 0) env.macOsVersion then
      .ok { errors := ["Setting " ++ fq ++
              " to \"vz\" on ARM requires macOS 13.3 (Ventura) or later."]
            fatal := true }
    else if semverGt (13, 0, 0) env.macOsVersion then
      .ok { errors := ["Setting " ++ fq ++
              " to \"vz\" on Intel requires macOS 13.0 (Ventura) or later."]
            fatal := true }
    else do
      let mt ← chainGet merged ["experimental", "virtualMachine", "mount", "type"]
      if strictEqStrOpt mt RdEnum.MountType.NINEP then
        .ok { errors := ["Setting " ++ fq ++
                " to \"vz\" requires that experimental.virtual-machine.mount.type is " ++
                "\"reverse-sshfs\" or \"virtiofs\"."] }
      else
        .ok { modified := true }
  else if strictEqStr des RdEnum.VMType.QEMU then do
    let mt ← chainGet merged ["experimental", "virtualMachine", "mount", "type"]
    if strictEqStrOpt mt RdEnum.MountType.VIRTIOFS && env.platform = "darwin" then
      .ok { errors := ["Setting " ++ fq ++
              " to \"qemu\" requires that experimental.virtual-machine.mount.type is " ++
              "\"reverse-sshfs\" or \"9p\"."] }
    else
      .ok { modified := true }
  else
    .ok { modified := true }

/-- `UserSettingsValidator.checkMountType` (userValidator.ts).  The
`mergedSettings.experimental.virtualMachine.type` read is guarded by the
`desiredValue ===` comparisons thanks to `&&` short-circuiting. -/
def checkMountType (env : Env) : RuleFn := fun merged _ des fq => do
  let error : Option String ←
    if strictEqStr des RdEnum.MountType.VIRTIOFS then do
      let vt ← chainGet merged ["experimental", "virtualMachine", "type"]
      if !strictEqStrOpt vt RdEnum.VMType.VZ && env.platform = "darwin" then
        pure (some ("Setting " ++ fq ++
          " to \"virtiofs\" requires that experimental.virtual-machine.type is \"vz\"."))
      else if !strictEqStrOpt vt RdEnum.VMType.QEMU && env.platform = "linux" then
        pure (some ("Setting " ++ fq ++
          " to \"virtiofs\" requires that experimental.virtual-machine.type is \"qemu\"."))
      else
        pure none
    else if strictEqStr des RdEnum.MountType.NINEP then do
      let vt ← chainGet merged ["experimental", "virtualMachine", "type"]
      if !strictEqStrOpt vt RdEnum.VMType.QEMU then
        pure (some ("Setting " ++ fq ++
          " to \"9p\" requires that experimental.virtual-machine.type is \"qemu\"."))
      else
        pure none
    else
      pure none
  match error with
  | some e => .ok { errors := [e] }
  | none => .ok { modified := true }

/-- `UserSettingsValidator.checkKubernetesVersion` (userValidator.ts). -/
def checkKubernetesVersion (env : Env) : RuleFn := fun merged _ des _ => do
  let enabled ← chainGet merged ["kubernetes", "enabled"]
  if !truthyOpt enabled && strictEqStr des "" then
    .ok { modified := true }
  else if env.k8sVersions.isEmpty then
    .ok { modified := true }
  else if !(match des with | .str s => env.k8sVersions.contains s | _ => false) then
    .ok { errors := ["Kubernetes version \"" ++ des.jsToString ++ "\" not found."] }
  else
    .ok { modified := true }

/-- The per-entry loop of `checkBooleanMapping`: collects errors and the
`changed` flag. -/
def checkBooleanMappingLoop (cur : Option JValue) (fq : String) :
    List (String × JValue) → Bool → List String →
    Except JsErr (Bool × List String)
  | [], changed, errs => .ok (changed, errs)
  | (key, value) :: rest, changed, errs =>
    match value with
    | .bool _ => do
      let curV ← JValue.propGet cur key
      checkBooleanMappingLoop cur fq rest
        (changed || !jsStrictEq curV (some value)) errs
    | .null => do
      let curV ← JValue.propGet cur key
      checkBooleanMappingLoop cur fq rest
        (changed || !jsStrictEq curV (some value)) errs
    | _ =>
      checkBooleanMappingLoop cur fq rest changed
        (errs ++ [invalidSettingMessage (fq ++ "." ++ key) value])

/-- `UserSettingsValidator.checkBooleanMapping` (userValidator.ts).  Note
`typeof null === 'object'` passes the first guard, after which
`Object.entries(null)` throws (after `k in null` throws first when the
current value has keys). -/
def checkBooleanMapping : RuleFn := fun _ cur des fq =>
  if !des.typeofObject then
    .ok { errors := ["Proposed field \"" ++ fq ++ "\" should be an object, got <" ++
            des.jsToString ++ ">."] }
  else do
    let curKeys ← jsObjectKeys cur
    let changed0 ← curKeys.anyM fun k => do
      let present ← JValue.memberIn (some des) k
      pure !present
    let entries ← jsObjectEntries des
    let (changed, errs) ← checkBooleanMappingLoop cur fq entries changed0 []
    .ok { modified := errs.isEmpty && changed, errors := errs }

/-- `UserSettingsValidator.checkUniqueStringArray` (userValidator.ts),
with the locale-aware comparator supplied by the environment
(`Intl.Collator().compare`). -/
def checkUniqueStringArray (env : Env) : RuleFn := fun _ cur des fq =>
  match des with
  | .arr elems =>
    if !elems.all (fun e => match e with | .str _ => true | _ => false) then
      .ok { errors := [invalidSettingMessage fq des] }
    else
      let strs := elems.filterMap fun e => match e with | .str s => some s | _ => none
      let duplicateValues := findDuplicates strs
      if duplicateValues.length > 0 then
        let sorted := jsSortBy env.collatorCompare duplicateValues
        .ok { errors := ["field \"" ++ fq ++ "\" has duplicate entries: \"" ++
                String.intercalate "\", \"" sorted ++ "\""] }
      else do
        let curLen ← JValue.propGet cur "length"
        if !jsStrictEq curLen (some (.num elems.length)) then
          .ok { modified := true }
        else
          match cur with
          | some (.arr cs) =>
            .ok { modified := (cs.zip elems).any fun p => !jsStrictEq (some p.1) (some p.2) }
          | _ =>
            -- `currentValue.some(...)` on a non-array with a matching
            -- `length` (only strings can reach this) throws.
            .error (.typeError "currentValue.some is not a function")
  | _ => .ok { errors := [invalidSettingMessage fq des] }

/-- The per-entry loop of `checkInstalledExtensions`. -/
def checkInstalledExtensionsLoop (env : Env) (fq : String) :
    List (String × JValue) → List String → List String
  | [], errs => errs
  | (name, tag) :: rest, errs =>
    let errs :=
      if !env.validateImageName name then
        errs ++ [fq ++ ": \"" ++ name ++ "\" is an invalid name"]
      else errs
    let errs :=
      match tag with
      | .str t =>
        if !env.validateImageTag t then
          errs ++ [fq ++ ": \"" ++ name ++ "\" has invalid tag \"" ++ t ++ "\""]
        else errs
      | _ => errs ++ [fq ++ ": \"" ++ name ++ "\" has non-string tag \"" ++
               tag.jsToString ++ "\""]
    checkInstalledExtensionsLoop env fq rest errs

/-- `UserSettingsValidator.checkInstalledExtensions` (userValidator.ts). -/
def checkInstalledExtensions (env : Env) : RuleFn := fun _ cur des fq =>
  if jvEqOpt (some des) cur then
    .ok {}
  else if !des.isObjectLike then
    .ok { errors := [fq ++ ": \"" ++ des.jsToString ++ "\" is not a valid mapping"] }
  else do
    let entries ← jsObjectEntries des
    let errs := checkInstalledExtensionsLoop env fq entries []
    .ok { modified := errs.isEmpty && !jvEqOpt (some des) cur, errors := errs }

/-- `UserSettingsValidator.checkExtensionAllowList` (userValidator.ts). -/
def checkExtensionAllowList (env : Env) : RuleFn := fun merged cur des fq =>
  if jvEqOpt (some des) cur then
    .ok {}
  else do
    let r ← checkUniqueStringArray env merged cur des fq
    if !r.errors.isEmpty then
      .ok r
    else
      let patterns : List String :=
        match des with
        | .arr elems => elems.filterMap fun e =>
            match e with | .str s => some s | _ => none
        | _ => []
      let extra := patterns.filterMap fun p =>
        if !env.parseImageReference p then
          some (fq ++ ": \"" ++ p ++ "\" does not describe an image reference")
        else none
      .ok { r with errors := r.errors ++ extra }

/-- `TransientSettingsValidator.checkPreferencesNavItemCurrent`
(transientValidator.ts). -/
def checkPreferencesNavItemCurrent : RuleFn := fun _ cur des fq =>
  if !des.truthy ||
      !(match des with | .str s => navItemNames.contains s | _ => false) then
    .ok { errors := [fq ++ ": \"" ++ des.jsToString ++
            "\" is not a valid page name for Preferences Dialog"] }
  else
    .ok { modified := !jsStrictEq cur (some des) }

/-- The per-key loop of `checkPreferencesNavItemCurrentTabs`. -/
def checkNavItemTabsLoop (env : Env) (cur : Option JValue) (des : JValue)
    (fq : String) : List String → List String → Except JsErr (List String)
  | [], errs => .ok errs
  | k :: rest, errs =>
    if !navItemNames.contains k then
      checkNavItemTabsLoop env cur des fq rest
        (errs ++ [fq ++ ": \"" ++ k ++
          "\" is not a valid page name for Preferences Dialog"])
    else do
      let curK ← JValue.propGet cur k
      let desK ← JValue.propGet (some des) k
      if jvEqOpt curK desK then
        checkNavItemTabsLoop env cur des fq rest errs
      else
        let navItemTabs := (env.preferencesNavItems.lookup k).getD none
        let desStr := match desK with | some v => v.jsToString | none => "undefined"
        let valid :=
          match navItemTabs, desK with
          | some tabs, some (.str t) => tabs.contains t
          | _, _ => false
        if !valid then
          checkNavItemTabsLoop env cur des fq rest
            (errs ++ [fq ++ ": tab name \"" ++ desStr ++
              "\" is not a valid tab name for \"" ++ k ++ "\" Preference page"])
        else
          checkNavItemTabsLoop env cur des fq rest errs

/-- `TransientSettingsValidator.checkPreferencesNavItemCurrentTabs`
(transientValidator.ts). -/
def checkPreferencesNavItemCurrentTabs (env : Env) : RuleFn := fun _ cur des fq => do
  let keys ← jsObjectKeys (some des)
  let errs ← checkNavItemTabsLoop env cur des fq keys []
  if errs.isEmpty then
    .ok { modified := !jvEqOpt cur (some des) }
  else
    .ok { errors := errs }

/-- `UserSettingsValidator.allowedSettings` (userValidator.ts), in its
declaration order. -/
def userAllowedSettings (env : Env) : List (String × RuleEntry) := [
  ("application", .node [
    ("adminAccess", .leaf (checkLima env checkBoolean)),
    ("debug", .leaf checkBoolean),
    ("extensions", .node [
      ("allowed", .node [
        ("enabled", .leaf checkBoolean),
        ("list", .leaf (checkExtensionAllowList env))]),
      ("installed", .leaf (checkInstalledExtensions env))]),
    ("pathManagementStrategy",
      .leaf (checkLima env (checkEnum RdEnum.PathManagementStrategy.values))),
    ("telemetry", .node [("enabled", .leaf checkBoolean)]),
    ("updater", .node [("enabled", .leaf checkBoolean)]),
    ("autoStart", .leaf checkBoolean),
    ("startInBackground", .leaf checkBoolean),
    ("hideNotificationIcon", .leaf checkBoolean),
    ("window", .node [("quitOnClose", .leaf checkBoolean)])]),
  ("containerEngine", .node [
    ("allowedImages", .node [
      ("enabled", .leaf checkBoolean),
      ("patterns", .leaf (checkUniqueStringArray env))]),
    ("name", .leaf (checkEnum ["containerd", "moby", "docker"]))]),
  ("virtualMachine", .node [
    ("memoryInGB", .leaf (checkLima env (checkNumber 1 none))),
    ("numberCPUs", .leaf (checkLima env (checkNumber 1 none))),
    ("hostResolver", .leaf (checkPlatform env "win32" checkBoolean))]),
  ("experimental", .node [
    ("virtualMachine", .node [
      ("mount", .node [
        ("type", .leaf (checkLima env (checkMulti
          [checkEnum RdEnum.MountType.values, checkMountType env]))),
        ("9p", .node [
          ("securityModel",
            .leaf (checkLima env (check9P (checkEnum RdEnum.SecurityModel.values)))),
          ("protocolVersion",
            .leaf (checkLima env (check9P (checkEnum RdEnum.ProtocolVersion.values)))),
          ("msizeInKib", .leaf (checkLima env (check9P (checkNumber 4 none)))),
          ("cacheMode",
            .leaf (checkLima env (check9P (checkEnum RdEnum.CacheMode.values))))])]),
      ("socketVMNet", .leaf (checkPlatform env "darwin" checkBoolean)),
      ("networkingTunnel", .leaf (checkPlatform env "win32" checkBoolean)),
      ("useRosetta", .leaf (checkPlatform env "darwin" (checkRosetta env))),
      ("type", .leaf (checkPlatform env "darwin" (checkMulti
        [checkEnum RdEnum.VMType.values, checkVMType env]))),
      ("proxy", .node [
        ("enabled", .leaf (checkPlatform env "win32" checkBoolean)),
        ("address", .leaf (checkPlatform env "win32" checkString)),
        ("password", .leaf (checkPlatform env "win32" checkString)),
        ("port", .leaf (checkPlatform env "win32" (checkNumber 1 (some 65535)))),
        ("username", .leaf (checkPlatform env "win32" checkString)),
        ("noproxy", .leaf (checkPlatform env "win32" (checkUniqueStringArray env)))])])]),
  ("WSL", .node [
    ("integrations", .leaf (checkPlatform env "win32" checkBooleanMapping))]),
  ("kubernetes", .node [
    ("version", .leaf (checkKubernetesVersion env)),
    ("port", .leaf (checkNumber 1 (some 65535))),
    ("enabled", .leaf checkBoolean),
    ("options", .node [
      ("traefik", .leaf checkBoolean),
      ("flannel", .leaf checkBoolean)]),
    ("ingress", .node [
      ("localhostOnly", .leaf (checkPlatform env "win32" checkBoolean))])]),
  ("portForwarding", .node [
    ("includeKubernetesServices", .leaf checkBoolean)]),
  ("images", .node [
    ("showAll", .leaf checkBoolean),
    ("namespace", .leaf checkString)]),
  ("diagnostics", .node [
    ("mutedChecks", .leaf checkBooleanMapping),
    ("showMuted", .leaf checkBoolean)])]

/-- `TransientSettingsValidator.allowedTransientSettings`
(transientValidator.ts). -/
def allowedTransientSettings (env : Env) : List (String × RuleEntry) := [
  ("application", .node [
    ("debug", .leaf checkUnchanged),
    ("isFirstRun", .leaf checkUnchanged)]),
  ("noModalDialogs", .leaf checkBoolean),
  ("preferences", .node [
    ("navItem", .node [
      ("current", .leaf checkPreferencesNavItemCurrent),
      ("currentTabs", .leaf (checkPreferencesNavItemCurrentTabs env))])])]

/-- One entry of the synonyms table: either a canonicalization function or
a nested table.  The source passes `(newSettings, index)` to the function;
both synonym functions only rewrite the value at that index, so the entry
is embedded as a value rewrite. -/
inductive SynEntry where
  | fn (f : JValue → JValue) : SynEntry
  | node (entries : List (String × SynEntry)) : SynEntry

/-- `UserSettingsValidator.canonicalizeKubernetesVersion` (userValidator.ts):
strip a `v` front marker and/or a `+k3sN` tail from a `d.d.d` version. -/
def canonicalizeKubernetesVersion (v : JValue) : JValue :=
  match v with
  | .str s =>
    let (hasV, afterV) :=
      match s.toList with
      | 'v' :: t => (true, t)
      | t => (false, t)
    let d1 := afterV.takeWhile Char.isDigit
    let r1 := afterV.drop d1.length
    match r1 with
    | '.' :: r2 =>
      let d2 := r2.takeWhile Char.isDigit
      let r3 := r2.drop d2.length
      (match r3 with
        | '.' :: r4 =>
          let d3 := r4.takeWhile Char.isDigit
          let r5 := r4.drop d3.length
          if d1.isEmpty || d2.isEmpty || d3.isEmpty then v
          else
            let core := String.mk (d1 ++ '.' :: d2 ++ '.' :: d3)
            (match r5 with
              | [] => if hasV then .str core else v
              | '+' :: 'k' :: '3' :: 's' :: ds =>
                if !ds.isEmpty && ds.all Char.isDigit then .str core else v
              | _ => v)
        | _ => v)
    | _ => v
  | _ => v

/-- `UserSettingsValidator.canonicalizeContainerEngine` (userValidator.ts). -/
def canonicalizeContainerEngine (v : JValue) : JValue :=
  match v with
  | .str "docker" => .str "moby"
  | _ => v

/-- `UserSettingsValidator.canonicalizeBool` (userValidator.ts). -/
def canonicalizeBool (v : JValue) : JValue :=
  match v with
  | .str "true" => .bool true
  | .str "false" => .bool false
  | _ => v

/-- `UserSettingsValidator.canonicalizeNumber` (userValidator.ts): a string
is replaced by `parseInt(·, 10)` unless that is `NaN`. -/
def canonicalizeNumber (v : JValue) : JValue :=
  match v with
  | .str s =>
    match jsParseInt s with
    | some n => .num n
    | none => v
  | _ => v

/-- The `synonymsTable` of `canonicalizeSynonyms` (userValidator.ts). -/
def synonymsTable : List (String × SynEntry) := [
  ("containerEngine", .node [("name", .fn canonicalizeContainerEngine)]),
  ("kubernetes", .node [("version", .fn canonicalizeKubernetesVersion)])]

/-- `synonymsTable[k] ?? \x7b\x7d` as a child table: a function entry acts
as an empty table when recursed into, since property reads of a function
yield `undefined`. -/
def synChild : Option SynEntry → List (String × SynEntry)
  | some (.node entries) => entries
  | _ => []

/-- Look up a synonyms-table key. -/
def lookupSyn : List (String × SynEntry) → String → Option SynEntry
  | [], _ => none
  | (k, e) :: rest, key => if k = key then some e else lookupSyn rest key

mutual

/-- `UserSettingsValidator.canonicalizeSettings` (userValidator.ts): walk
the proposed settings, rewriting values in place.  Object-typed values
(including `null` and arrays, whose index keys `for...in` enumerates)
recurse with the child synonyms table; other values go through the synonym
function for the key if there is one, else are coerced when the
Hard-Defaults value at the same path is a boolean or a number.  A primitive
proposal root iterates nothing (see `checkProposedSettings`). -/
def canonicalizeSettings (env : Env) (tbl : List (String × SynEntry))
    (news : JValue) (pfxPath : List String) : JValue :=
  match news with
  | .obj o => .obj (canonFields env tbl o pfxPath)
  | .arr xs => .arr (canonElems env tbl 0 xs pfxPath)
  | v => v
termination_by structural news

/-- The canonicalization loop over an object's fields. -/
def canonFields (env : Env) (tbl : List (String × SynEntry)) :
    List (String × JValue) → List String → List (String × JValue)
  | [], _ => []
  | (k, v) :: rest, pfxPath =>
    let v' :=
      if v.typeofObject then
        canonicalizeSettings env (synChild (lookupSyn tbl k)) v (pfxPath ++ [k])
      else
        match lookupSyn tbl k with
        | some (.fn f) => f v
        | _ =>
          match settingsLayerDefaultsGet env (pfxPath ++ [k]) with
          | some (.bool _) => canonicalizeBool v
          | some (.num _) => canonicalizeNumber v
          | _ => v
    (k, v') :: canonFields env tbl rest pfxPath
termination_by structural entries => entries

/-- The canonicalization loop over an array's index keys. -/
def canonElems (env : Env) (tbl : List (String × SynEntry)) (i : Nat) :
    List JValue → List String → List JValue
  | [], _ => []
  | v :: rest, pfxPath =>
    let k := toString i
    let v' :=
      if v.typeofObject then
        canonicalizeSettings env (synChild (lookupSyn tbl k)) v (pfxPath ++ [k])
      else
        match lookupSyn tbl k with
        | some (.fn f) => f v
        | _ =>
          match settingsLayerDefaultsGet env (pfxPath ++ [k]) with
          | some (.bool _) => canonicalizeBool v
          | some (.num _) => canonicalizeNumber v
          | _ => v
    v' :: canonElems env tbl (i + 1) rest pfxPath
termination_by structural elems => elems

end

/-- `UserSettingsValidator.canonicalizeSynonyms` (userValidator.ts). -/
def canonicalizeSynonyms (env : Env) (news : JValue) : JValue :=
  canonicalizeSettings env synonymsTable news []

/-- `UserSettingsValidator.validateSettings` (userValidator.ts):
canonicalize the proposal, then walk it against `allowedSettings` with the
merged `_.merge(\x7b\x7d, currentSettings, newSettings)` tree. -/
def validateUserSettings (env : Env) (current news : JValue) :
    Except JsErr ValidatorReturn :=
  let news := canonicalizeSynonyms env news
  checkProposedSettings (JValue.lmergeAll [current, news])
    (userAllowedSettings env) (some current) news ""

/-- `TransientSettingsValidator.validateSettings` (transientValidator.ts). -/
def validateTransientSettings (env : Env) (current news : JValue) :
    Except JsErr ValidatorReturn :=
  checkProposedSettings (JValue.lmergeAll [current, news])
    (allowedTransientSettings env) (some current) news ""

/-- One level of the customizer's `null`-deletion when a change subtree is
assigned into a slot the destination does not hold as an object: the
`null`-valued keys of the source are removed (and the deep clone lodash
then assigns keeps any deeper `null`s, as the customizer is not re-invoked
below an assigned clone). -/
def dropNullFields (s : List (String × JValue)) : List (String × JValue) :=
  s.filter fun kv => match kv.2 with | .null => false | _ => true

mutual

/-- The per-property loop of `mergeWithCust` when both sides are objects:
the customizer's `null`-deletion removes a `null`-valued change key from
both the change and the destination, and the remaining keys merge
recursively (interleaving the deletions with the merges of the other,
distinct keys is equivalent to the source's clean-first-then-merge order). -/
def mwcFieldsClean (d : List (String × JValue)) : List (String × JValue) →
    List (String × JValue)
  | [] => d
  | (k, .null) :: rest => mwcFieldsClean (JValue.delField d k) rest
  | (k, sv) :: rest =>
    mwcFieldsClean (JValue.setFirst d k (mwcMerge (JValue.lookupField d k) sv)) rest
termination_by structural s => s

/-- The per-property loop at the root of `_.mergeWith`: the customizer is
only invoked for the properties themselves, so a `null` value at the root
of the changes is assigned, not deleted. -/
def mwcFields (d : List (String × JValue)) : List (String × JValue) →
    List (String × JValue)
  | [] => d
  | (k, sv) :: rest =>
    mwcFields (JValue.setFirst d k (mwcMerge (JValue.lookupField d k) sv)) rest
termination_by structural s => s

/-- Merge one slot: first the customizer's array-of-primitives check
(`typeof i !== 'object'`, so a `null` element disqualifies), then the
customizer's `null`-deletion and lodash's default deep merge. -/
def mwcMerge (objV : Option JValue) (sv : JValue) : JValue :=
  if (match objV with
      | some (.arr xs) => xs.all fun e => !e.typeofObject
      | _ => false) then
    sv
  else
    match objV, sv with
    | some (.obj o), .obj s2 => .obj (mwcFieldsClean o s2)
    | _, .obj s2 => .obj (dropNullFields s2)
    | some (.arr o), .arr s2 => .arr (mwcElems o s2)
    | _, .arr s2 => .arr s2
    | _, w => w
termination_by structural sv

/-- Index-wise merge of arrays (see `lmergeElems`), with the customizer
applied per index. -/
def mwcElems : List JValue → List JValue → List JValue
  | o, [] => o
  | [], s => s
  | x :: xs, y :: ys => mwcMerge (some x) y :: mwcElems xs ys
termination_by structural _ s => s

end

/-- `_.mergeWith(settings, changes, customizer)` as called by
`SettingsLayerUser.merge` (manager.ts): arrays of primitives are
overwritten wholesale, and a `null` entry of an object-valued change
deletes that key from both the change and the destination. -/
def mergeWithCust (dst changes : JValue) : JValue :=
  match dst, changes with
  | .obj d, .obj s => .obj (mwcFields d s)
  | d, _ => d

/-- The state of `SettingsLayerTransient` (transient.ts). -/
structure TransientState where
  settings : JValue

/-- A fresh transient layer: `clone(defaults)`. -/
def initialTransientState (env : Env) : TransientState :=
  ⟨defaultTransientSettings env⟩

/-- `SettingsLayerTransient.set` (transient.ts): an unchecked single-field
write, guarded by `_.has(defaultTransientSettings, key)` (note: the
module-level defaults, not the live settings). -/
def transientSet (env : Env) (st : TransientState) (key : String) (v : JValue) :
    TransientState × Bool :=
  if JValue.lodashHasPath (defaultTransientSettings env) (splitKey key) then
    (⟨JValue.lodashSetPath st.settings (splitKey key) v⟩, true)
  else
    (st, false)

/-- `SettingsLayerTransient.get` (transient.ts). -/
def transientGet (st : TransientState) (key : String) : Option JValue :=
  JValue.lodashGetPath st.settings (splitKey key)

/-- `SettingsLayerTransient.merge` (transient.ts): validate against the
transient validator and `_.merge` the changes in only when there are no
errors. -/
def transientMerge (env : Env) (st : TransientState) (changes : JValue) :
    Except JsErr (ValidatorReturn × TransientState) := do
  let validatorReturn ← validateTransientSettings env st.settings changes
  if validatorReturn.errors.length > 0 then
    .ok (validatorReturn, st)
  else
    .ok (validatorReturn, ⟨JValue.lmergeInto st.settings changes⟩)

/-- The state of `SettingsLayerUser`: `settings` is `undefined` until
`load()` ran. -/
structure UserState where
  settings : Option JValue

/-- `SettingsLayerUser.merge` as cited by the claims (manager.ts lines
197-231): throws if not loaded, otherwise deep-merges the changes in
unconditionally — it never invokes the validator (the comment in that
revision assumes validation already happened). -/
def userMergeNoValidate (st : UserState) (changes : JValue) :
    Except JsErr UserState :=
  match st.settings with
  | none => .error (.thrown "Cannot set user settings before loading")
  | some s => .ok ⟨some (mergeWithCust s changes)⟩

/-- `SettingsLayerUser.merge` of the sibling revision in the sources
(src/unnamed/part_003, user.ts): validates the changes against
`_.merge(\x7b\x7d, defaults, settings)` and commits only when validation
produced no errors — the behaviour the repository's user.spec.ts expects. -/
def userMergeValidating (env : Env) (st : UserState) (changes : JValue) :
    Except JsErr (ValidatorReturn × UserState) :=
  match st.settings with
  | none => .error (.thrown "Cannot set user settings before loading")
  | some s => do
    let vr ← validateUserSettings env
      (JValue.lmergeAll [defaultSettings env, s]) changes
    if vr.errors.length > 0 then
      .ok (vr, st)
    else
      .ok (vr, ⟨some (mergeWithCust s changes)⟩)

/-- `SettingsLayerUser.set` (manager.ts lines 184-195): unchecked write,
accepted only for keys present in the Hard-Defaults tree. -/
def userSet (env : Env) (st : UserState) (key : String) (v : JValue) :
    Except JsErr (UserState × Bool) :=
  match st.settings with
  | none => .error (.thrown "Cannot set user settings before loading")
  | some s =>
    if JValue.lodashHasPath (defaultSettings env) (splitKey key) then
      .ok (⟨some (JValue.lodashSetPath s (splitKey key) v)⟩, true)
    else
      .ok (st, false)

/-- `SettingsLayerUser.getAll` (manager.ts): `this.settings ?? \x7b\x7d`. -/
def userGetAll (st : UserState) : JValue :=
  st.settings.getD JValue.emptyObj

/-- The loop of `managerGetSnapshot`; `discarded` is the unused value of
the `_.merge(\x7b\x7d, layer.getSnapshot(), merged)` statement. -/
def managerGetSnapshotLoop : List JValue → JValue → JValue
  | [], merged => merged
  | snap :: rest, merged =>
    let discarded := JValue.lmergeAll [snap, merged]
    let _ := discarded
    managerGetSnapshotLoop rest merged

/-- `SettingsManager.getSnapshot` (manager.ts lines 79-88).  Each loop
iteration evaluates `_.merge(\x7b\x7d, layer.getSnapshot(), merged)` and
discards the result: `merged` is only passed as a merge *source* (lodash
mutates just its first argument), so the accumulator is never updated. -/
def managerGetSnapshot (layerSnapshots : List JValue) : JValue :=
  managerGetSnapshotLoop layerSnapshots JValue.emptyObj

/-- Where `SettingsManager.set` routes a call (manager.ts lines 94-102). -/
inductive SetRoute where
  | toUserSet (key : JValue) (value : JValue) : SetRoute
  | toUserMerge (changes : JValue) : SetRoute

/-- `SettingsManager.set` (manager.ts lines 94-102): `if (value)` — the
dispatch tests the truthiness of the second argument, not its presence —
routes to the User layer's unchecked `set`, and otherwise the first
argument goes to the User layer's `merge`. -/
def managerSet (changes : JValue) (value : Option JValue) : SetRoute :=
  match value with
  | some v => if v.truthy then .toUserSet changes v else .toUserMerge changes
  | none => .toUserMerge changes

/-- `CURRENT_SETTINGS_VERSION` (migrate.ts). -/
def CURRENT_SETTINGS_VERSION : Int := 10

/-- A field of an object literal whose value may be `undefined` (in which
case this model leaves the key absent; see the header note). -/
def optField (k : String) (v : Option JValue) : List (String × JValue) :=
  match v with
  | some w => [(k, w)]
  | none => []

/-- Property assignment whose right-hand side may be `undefined`: assigning
`undefined` leaves a key whose value is `undefined`, which this model
represents by removing the key. -/
def propSetU (base : Option JValue) (key : String) (v : Option JValue) :
    Except JsErr JValue :=
  match v with
  | some w => JValue.propSet base key w
  | none =>
    match base with
    | some (.obj o) => .ok (.obj (JValue.delField o key))
    | _ => JValue.propSet base key .null

/-- `updateTable[1]` (migrate.ts): drop `kubernetes.rancherMode`. -/
def migrator1 (root : JValue) : Except JsErr JValue := do
  let kub ← JValue.propGet (some root) "kubernetes"
  let has ← JValue.memberIn kub "rancherMode"
  if has then do
    let kub2 ← JValue.propDelete kub "rancherMode"
    JValue.propSet (some root) "kubernetes" kub2
  else
    .ok root

/-- `updateTable[4]` (migrate.ts): introduce the `application`,
`virtualMachine`, `experimental` and `WSL` subtrees from the old
kubernetes-centric layout, then delete the moved fields. -/
def migrator4 (root : JValue) : Except JsErr JValue := do
  let kub ← JValue.propGet (some root) "kubernetes"
  let suppressSudo ← JValue.propGet kub "suppressSudo"
  let debug ← JValue.propGet (some root) "debug"
  let pms ← JValue.propGet (some root) "pathManagementStrategy"
  let telemetry ← JValue.propGet (some root) "telemetry"
  let updater ← JValue.propGet (some root) "updater"
  let application := JValue.obj (
    [("adminAccess", JValue.bool (!truthyOpt suppressSudo))] ++
    optField "debug" debug ++
    optField "pathManagementStrategy" pms ++
    [("telemetry", .obj (optField "enabled" telemetry)),
     ("updater", .obj (optField "enabled" updater))])
  let root ← JValue.propSet (some root) "application" application
  let kub ← JValue.propGet (some root) "kubernetes"
  let hostResolver ← JValue.propGet kub "hostResolver"
  let memoryInGB ← JValue.propGet kub "memoryInGB"
  let numberCPUs ← JValue.propGet kub "numberCPUs"
  let root ← JValue.propSet (some root) "virtualMachine" (.obj (
    optField "hostResolver" hostResolver ++
    optField "memoryInGB" memoryInGB ++
    optField "numberCPUs" numberCPUs))
  let kub ← JValue.propGet (some root) "kubernetes"
  let kexp ← JValue.propGet kub "experimental"
  let socketVMNet ← JValue.propGet kexp "socketVMNet"
  let root ← JValue.propSet (some root) "experimental"
    (.obj [("virtualMachine", .obj (optField "socketVMNet" socketVMNet))])
  let kub ← JValue.propGet (some root) "kubernetes"
  let wslIntegrations ← JValue.propGet kub "WSLIntegrations"
  let root ← JValue.propSet (some root) "WSL"
    (.obj (optField "integrations" wslIntegrations))
  let kub ← JValue.propGet (some root) "kubernetes"
  let engine ← JValue.propGet kub "containerEngine"
  let ce ← JValue.propGet (some root) "containerEngine"
  let ce2 ← propSetU ce "name" engine
  let root ← JValue.propSet (some root) "containerEngine" ce2
  let kub ← JValue.propGet (some root) "kubernetes"
  let kub ← JValue.propDelete kub "containerEngine"
  let kub ← ["experimental", "hostResolver", "checkForExistingKimBuilder",
      "memoryInGB", "numberCPUs", "suppressSudo", "WSLIntegrations"].foldlM
    (fun acc k => JValue.propDelete (some acc) k) kub
  let root ← JValue.propSet (some root) "kubernetes" kub
  let root ← JValue.propDelete (some root) "debug"
  let root ← JValue.propDelete (some root) "pathManagementStrategy"
  let root ← JValue.propDelete (some root) "telemetry"
  JValue.propDelete (some root) "updater"

/-- `updateTable[5]` (migrate.ts). -/
def migrator5 (root : JValue) : Except JsErr JValue := do
  let ce ← JValue.propGet (some root) "containerEngine"
  let ial ← JValue.propGet ce "imageAllowList"
  let root ←
    if truthyOpt ial then do
      let ce2 ← propSetU ce "allowedImages" ial
      let root ← JValue.propSet (some root) "containerEngine" ce2
      let ce3 ← JValue.propGet (some root) "containerEngine"
      let ce4 ← JValue.propDelete ce3 "imageAllowList"
      JValue.propSet (some root) "containerEngine" ce4
    else
      pure root
  let vm ← JValue.propGet (some root) "virtualMachine"
  let vexp ← JValue.propGet vm "experimental"
  let root ←
    if truthyOpt vexp then do
      let root ← do
        let hasS ← JValue.memberIn vexp "socketVMNet"
        if hasS then do
          let svm ← JValue.propGet vexp "socketVMNet"
          let root ← JValue.propSet (some root) "experimental"
            (.obj [("virtualMachine", .obj (optField "socketVMNet" svm))])
          let vexp2 ← JValue.propDelete vexp "socketVMNet"
          let vm2 ← JValue.propSet vm "experimental" vexp2
          JValue.propSet (some root) "virtualMachine" vm2
        else
          pure root
      let vm3 ← JValue.propGet (some root) "virtualMachine"
      let vm4 ← JValue.propDelete vm3 "experimental"
      JValue.propSet (some root) "virtualMachine" vm4
    else
      pure root
  ["autoStart", "hideNotificationIcon", "startInBackground", "window"].foldlM
    (fun root field => do
      let has ← JValue.memberIn (some root) field
      if has then do
        let v ← JValue.propGet (some root) field
        let app ← JValue.propGet (some root) "application"
        let app2 ← propSetU app field v
        let root ← JValue.propSet (some root) "application" app2
        JValue.propDelete (some root) field
      else
        pure root)
    root

/-- `image.split(':', 2).concat('latest').slice(0, 2)` (migrate.ts,
`updateTable[6]`). -/
def extTagPair (image : String) : String × String :=
  match image.splitOn ":" with
  | [] => ("", "latest")
  | [a] => (a, "latest")
  | a :: b :: _ => (a, b)

/-- `updateTable[6]` (migrate.ts): re-key the extension list from
tag-in-key to tag-in-value form. -/
def migrator6 (root : JValue) : Except JsErr JValue := do
  let ext ← JValue.propGet (some root) "extensions"
  let entries ←
    match ext with
    | none => pure []
    | some .null => pure []
    | some v => jsObjectEntries v
  let withTags := (entries.filter fun kv => kv.2.truthy).map Prod.fst
  let extensions := withTags.map extTagPair
  let fromEntries := extensions.foldl
    (fun o kv => JValue.setFirst o kv.1 (.str kv.2)) []
  JValue.propSet (some root) "extensions" (.obj fromEntries)

/-- `updateTable[7]` (migrate.ts): resolve a `notset` path-management
strategy per platform. -/
def migrator7 (env : Env) (root : JValue) : Except JsErr JValue := do
  let app ← JValue.propGet (some root) "application"
  let pms ← JValue.propGet app "pathManagementStrategy"
  if strictEqStrOpt pms "notset" then do
    let app2 ← JValue.propSet app "pathManagementStrategy"
      (.str (if env.platform = "win32" then RdEnum.PathManagementStrategy.Manual
             else RdEnum.PathManagementStrategy.RcFiles))
    JValue.propSet (some root) "application" app2
  else
    .ok root

/-- `updateTable[8]` (migrate.ts): move `extensions` to
`application.extensions.installed`. -/
def migrator8 (root : JValue) : Except JsErr JValue := do
  let ext ← JValue.propGet (some root) "extensions"
  if truthyOpt ext then do
    let app ← JValue.propGet (some root) "application"
    let root ←
      match app with
      | none => JValue.propSet (some root) "application" JValue.emptyObj
      | some .null => JValue.propSet (some root) "application" JValue.emptyObj
      | _ => pure root
    let app ← JValue.propGet (some root) "application"
    let appExt ← JValue.propGet app "extensions"
    let root ←
      match appExt with
      | none => do
        let app2 ← JValue.propSet app "extensions" JValue.emptyObj
        JValue.propSet (some root) "application" app2
      | some .null => do
        let app2 ← JValue.propSet app "extensions" JValue.emptyObj
        JValue.propSet (some root) "application" app2
      | _ => pure root
    let app ← JValue.propGet (some root) "application"
    let appExt ← JValue.propGet app "extensions"
    let appExt2 ← propSetU appExt "installed" ext
    let app2 ← JValue.propSet app "extensions" appExt2
    let root ← JValue.propSet (some root) "application" app2
    JValue.propDelete (some root) "extensions"
  else
    .ok root

/-- `updateTable[9]` (migrate.ts): trim and drop blank `noproxy` entries. -/
def migrator9 (root : JValue) : Except JsErr JValue := do
  let e ← JValue.propGet (some root) "experimental"
  let vm ← JValue.propGet e "virtualMachine"
  let px ← JValue.propGet vm "proxy"
  let np ← JValue.propGet px "noproxy"
  let len ← JValue.propGet np "length"
  if (match len with | some (.num n) => decide (n > 0) | _ => false) then
    match np with
    | some (.arr xs) => do
      let trimmed ← xs.mapM fun entry =>
        match entry with
        | .str s => pure (JValue.str s.trim)
        | _ => Except.error (.typeError "entry.trim is not a function")
      let filtered := trimmed.filter fun entry =>
        match entry with
        | .str s => s.length > 0
        | _ => true
      let px2 ← propSetU px "noproxy" (some (.arr filtered))
      let vm2 ← propSetU vm "proxy" (some px2)
      let e2 ← propSetU e "virtualMachine" (some vm2)
      JValue.propSet (some root) "experimental" e2
    | _ => Except.error (.typeError "noproxy.map is not a function")
  else
    .ok root

/-- `updateTable[currentVersion] || (() => \x7b\x7d)` (migrate.ts):
versions 2 and 3 are explicit no-ops, any unlisted version a default
no-op. -/
def applyMigrator (env : Env) (v : Int) (root : JValue) : Except JsErr JValue :=
  if v = 1 then migrator1 root
  else if v = 4 then migrator4 root
  else if v = 5 then migrator5 root
  else if v = 6 then migrator6 root
  else if v = 7 then migrator7 env root
  else if v = 8 then migrator8 root
  else if v = 9 then migrator9 root
  else .ok root

/-- The `for (; currentVersion < CURRENT_SETTINGS_VERSION; currentVersion++)`
loop of `migrateSettings` (migrate.ts), as a fold over the versions the
loop visits: `v, v+1, …, CURRENT_SETTINGS_VERSION - 1` (none when
`v ≥ CURRENT_SETTINGS_VERSION`). -/
def migrateLoop (env : Env) (root : JValue) (v : Int) : Except JsErr JValue :=
  ((List.range (CURRENT_SETTINGS_VERSION - v).toNat).map fun i => v + i).foldlM
    (fun r i => applyMigrator env i r) root

/-- `settings.version || 0` (migrate.ts) for a document that passed the
emptiness check.  Truthy non-numeric version fields would flow through
JavaScript's implicit coercions in the `<`/`++` of the loop; such
documents are outside this model. -/
def versionOrZero (v : Option JValue) : Except JsErr Int :=
  match v with
  | some (.num n) => .ok n
  | none => .ok 0
  | some .null => .ok 0
  | some (.bool false) => .ok 0
  | some (.str "") => .ok 0
  | some _ => .error (.unmodelled "truthy non-numeric version field")

/-- `migrateSettings` (migrate.ts): empty or non-object documents yield an
empty tree; otherwise run every registered migrator from the stored
version (`settings.version || 0`) up to the current version, then set
`version` to the current version.  The returned flag records whether the
from-the-future warning (`currentVersion > CURRENT_SETTINGS_VERSION`) was
logged. -/
def migrateSettings (env : Env) (settings : JValue) :
    Except JsErr (JValue × Bool) :=
  match settings with
  | .obj [] => .ok (JValue.emptyObj, false)
  | .arr [] => .ok (JValue.emptyObj, false)
  | .null => .ok (JValue.emptyObj, false)
  | .obj o => do
    let ver ← versionOrZero (JValue.lookupField o "version")
    let warned : Bool := decide (ver > CURRENT_SETTINGS_VERSION)
    let root ← migrateLoop env (.obj o) ver
    let root ← JValue.propSet (some root) "version" (.num CURRENT_SETTINGS_VERSION)
    .ok (root, warned)
  | .arr xs => do
    -- A non-empty array passes the emptiness check (`Object.keys` counts
    -- its indices) and has no `version` property.
    let root ← migrateLoop env (.arr xs) 0
    let root ← JValue.propSet (some root) "version" (.num CURRENT_SETTINGS_VERSION)
    .ok (root, false)
  | _ => .ok (JValue.emptyObj, false)

/-- `isVersionedSetting` (the migrate.ts revision in
src/unnamed/part_009, imported by `SettingsLayerUser.load`): an object is a
versioned settings document when it is a non-empty object whose `version`
is a non-negative number.  (`'version' in` a non-empty array is false, so
arrays fail the check; `typeof null === 'object'` passes the first guard
but `Object.keys(null || \x7b\x7d)` is empty.) -/
def isVersionedSetting (v : JValue) : Bool :=
  match v with
  | .obj o =>
    !o.isEmpty &&
    (match JValue.lookupField o "version" with
      | some (.num n) => decide (n ≥ 0)
      | _ => false)
  | _ => false

/-- How reading the settings file can fail. -/
inductive FsError where
  | enoent : FsError
  | other (msg : String) : FsError
deriving Repr, DecidableEq

/-- What `SettingsLayerUser.load` can raise: a filesystem error rethrown
from `readFile`, or a JavaScript exception from the post-read processing
(whose `err.code` is not `'ENOENT'`, so the catch rethrows it too). -/
inductive LoadErr where
  | fs (e : FsError) : LoadErr
  | js (e : JsErr) : LoadErr
deriving Repr, DecidableEq

/-- `SettingsLayerUser.load` (manager.ts lines 149-166).  `readResult`
stands for `JSON.parse(await fs.promises.readFile(...))`: a successful read
carries the parsed document.  A missing file (ENOENT) is not an error: the
user settings stay unloaded and the Transient layer's
`application.isFirstRun` is set through its unchecked `set` — the one
cross-layer side effect.  Every other failure propagates unmodified. -/
def userLoad (env : Env) (readResult : Except FsError JValue)
    (ust : UserState) (tst : TransientState) :
    Except LoadErr (UserState × TransientState) :=
  match readResult with
  | .error .enoent =>
    .ok (ust, (transientSet env tst "application.isFirstRun" (.bool true)).1)
  | .error (.other msg) => .error (.fs (.other msg))
  | .ok parsedData => do
    let parsedData ←
      if isVersionedSetting parsedData then pure parsedData
      else (JValue.propSet (some parsedData) "version" (.num 0)).mapError LoadErr.js
    let (migrated, _warned) ← (migrateSettings env parsedData).mapError LoadErr.js
    .ok (⟨some migrated⟩, tst)

/-! Shared lemmas and concrete instantiations used by the claim theorems. -/

/-- A concrete Linux host environment (fresh start: no known Kubernetes
versions yet). -/
def envLinux : Env := {
  platform := "linux"
  arch := "x64"
  macOsVersion := (0, 0, 0)
  runningUnderARM64Translation := false
  defaultMemoryInGB := 4
  k8sVersions := []
  collatorCompare := fun a b => if a < b then -1 else if b < a then 1 else 0
  validateImageName := fun _ => true
  validateImageTag := fun _ => true
  parseImageReference := fun _ => true
  preferencesNavItems := [] }

theorem lookupField_setFirst_self (o : List (String × JValue)) (k : String)
    (v : JValue) : JValue.lookupField (JValue.setFirst o k v) k = some v := by
  induction o with
  | nil => simp [JValue.setFirst, JValue.lookupField]
  | cons hd tl ih =>
    by_cases h : hd.1 = k
    · simp [JValue.setFirst, JValue.lookupField, h]
    · simp [JValue.setFirst, JValue.lookupField, h, ih]

theorem setFirst_self (o : List (String × JValue)) (k : String) (v : JValue)
    (h : JValue.lookupField o k = some v) : JValue.setFirst o k v = o := by
  induction o with
  | nil => simp [JValue.lookupField] at h
  | cons hd tl ih =>
    obtain ⟨k2, v2⟩ := hd
    by_cases hk : k2 = k
    · simp [JValue.lookupField, hk] at h
      simp [JValue.setFirst, hk, h]
    · simp [JValue.lookupField, hk] at h
      simp [JValue.setFirst, hk, ih h]

theorem managerGetSnapshotLoop_const (l : List JValue) (m : JValue) :
    managerGetSnapshotLoop l m = m := by
  induction l with
  | nil => rfl
  | cons hd tl ih => simpa [managerGetSnapshotLoop] using ih

/-- C1: the claim says every writable layer's `merge` validates first and
leaves the tree unchanged on error.  The Transient layer does (first
conjunct: a rejected transient merge returns the errors and the unchanged
state), but the cited `SettingsLayerUser.merge` (manager.ts lines 197-231)
never invokes the validator: for the loaded-empty User layer and the
changes `\x7b unknown: 1 \x7d`, the user validator reports an error
(second conjunct), yet `merge` commits the changes unconditionally (third
conjunct), leaving a tree different from the empty one it started with
(fourth conjunct) — contradicting the claim and the repository's own
user.spec.ts (`should not merge unknown settings`). -/
theorem C1_user_merge_commits_unvalidated_changes :
    transientMerge envLinux (initialTransientState envLinux)
        (.obj [("invalid", .num 123)]) =
      .ok ({ errors := [notSupportedMsg "invalid"] },
           initialTransientState envLinux)
    ∧ validateUserSettings envLinux JValue.emptyObj
        (.obj [("unknown", .num 1)]) =
      .ok { errors := [notSupportedMsg "unknown"] }
    ∧ userMergeNoValidate ⟨some JValue.emptyObj⟩ (.obj [("unknown", .num 1)]) =
      .ok ⟨some (.obj [("unknown", .num 1)])⟩
    ∧ JValue.obj [("unknown", .num 1)] ≠ JValue.emptyObj := by
  refine ⟨rfl, rfl, rfl, ?_⟩
  simp [JValue.emptyObj]

/-- C2: `SettingsManager.getSnapshot` (manager.ts lines 79-88) discards
every `_.merge(\x7b\x7d, layer.getSnapshot(), merged)` result, so it
returns the empty tree for every stack of layer snapshots — in particular
on a fresh install, where the claim (and spec) say it equals the non-empty
Hard-Defaults tree. -/
theorem C2_getSnapshot_returns_empty :
    (∀ layerSnapshots : List JValue,
      managerGetSnapshot layerSnapshots = JValue.emptyObj)
    ∧ managerGetSnapshot
        [JValue.emptyObj, defaultTransientSettings envLinux, JValue.emptyObj,
         JValue.emptyObj, defaultSettings envLinux] = JValue.emptyObj
    ∧ defaultSettings envLinux ≠ JValue.emptyObj := by
  refine ⟨fun l => managerGetSnapshotLoop_const l _, managerGetSnapshotLoop_const _ _, ?_⟩
  simp [defaultSettings, JValue.emptyObj]

/-- C10: `SettingsManager.set` (manager.ts lines 94-102) dispatches on the
truthiness of its second argument: any truthy value routes to the User
layer's unchecked `set(key, value)`, while a falsy value — `false`, `0`,
the empty string, or an omitted argument — routes the first argument to
the User layer's bulk `merge` as a changes object. -/
theorem C10_manager_set_dispatches_on_truthiness :
    (∀ (key v : JValue), v.truthy = true →
      managerSet key (some v) = .toUserSet key v)
    ∧ (∀ (key v : JValue), v.truthy = false →
      managerSet key (some v) = .toUserMerge key)
    ∧ (∀ key : JValue, managerSet key none = .toUserMerge key)
    ∧ (∀ key : JValue, managerSet key (some (.bool false)) = .toUserMerge key)
    ∧ (∀ key : JValue, managerSet key (some (.num 0)) = .toUserMerge key)
    ∧ (∀ key : JValue, managerSet key (some (.str "")) = .toUserMerge key) := by
  refine ⟨fun k v h => ?_, fun k v h => ?_, fun k => rfl, fun k => rfl,
    fun k => rfl, fun k => rfl⟩
  · simp [managerSet, h]
  · simp [managerSet, h]

/-- C10 witness: a truthy leaf routes to the unchecked single-field set. -/
theorem C10_witness :
    JValue.truthy (.bool true) = true ∧
    managerSet (.str "kubernetes.enabled") (some (.bool true)) =
      .toUserSet (.str "kubernetes.enabled") (.bool true) :=
  ⟨rfl, C10_manager_set_dispatches_on_truthiness.1
    (.str "kubernetes.enabled") (.bool true) rfl⟩

/-- The documents `migrateSettings` returns an empty tree for: empty
objects/arrays and non-objects (`typeof settings !== 'object'`, with
`null` caught by `Object.keys(settings || \x7b\x7d)`). -/
def emptyOrNonObjectDoc : JValue → Bool
  | .obj [] => true
  | .arr [] => true
  | .null => true
  | .obj _ => false
  | .arr _ => false
  | _ => true

/-- The non-empty-object arm of `migrateSettings`, as an equation. -/
theorem migrateSettings_cons (env : Env) (a : String × JValue)
    (l : List (String × JValue)) :
    migrateSettings env (.obj (a :: l)) = (do
      let ver ← versionOrZero (JValue.lookupField (a :: l) "version")
      let root ← migrateLoop env (.obj (a :: l)) ver
      let root ← JValue.propSet (some root) "version" (.num CURRENT_SETTINGS_VERSION)
      Except.ok (root, decide (ver > CURRENT_SETTINGS_VERSION))) := rfl

theorem migrate_obj_ok_version (env : Env) (o : List (String × JValue))
    (out : JValue) (warned : Bool) (hne : o ≠ [])
    (h : migrateSettings env (.obj o) = .ok (out, warned)) :
    ∃ o2, out = .obj o2 ∧
      JValue.lookupField o2 "version" = some (.num CURRENT_SETTINGS_VERSION) := by
  obtain ⟨a, l, rfl⟩ : ∃ a l, o = a :: l := by
    cases o with
    | nil => exact absurd rfl hne
    | cons a l => exact ⟨a, l, rfl⟩
  rw [migrateSettings_cons] at h
  rcases hv : versionOrZero (JValue.lookupField (a :: l) "version") with e | ver <;>
    rw [hv] at h
  · simp [bind, Except.bind] at h
  · simp only [bind, Except.bind] at h
    rcases hl : migrateLoop env (.obj (a :: l)) ver with e | root1 <;> rw [hl] at h
    · simp at h
    · cases root1 <;> simp [JValue.propSet] at h
      exact ⟨_, h.1.symm, lookupField_setFirst_self _ _ _⟩

/-- C3 counterexample: for the stored document `\x7b version: 11 \x7d`
(beyond the current schema version 10), `migrate()` succeeds with the
warning, but writes `version = 10` — it *decrements* the version field
(10 < 11), contradicting the claim that the version is never decremented
and is left at least its stored value. -/
theorem C3_counterexample_version_decremented :
    migrateSettings envLinux (.obj [("version", .num 11)]) =
      .ok (.obj [("version", .num 10)], true)
    ∧ JValue.lookupField [("version", JValue.num 11)] "version" = some (.num 11)
    ∧ (10 : Int) < 11 :=
  ⟨rfl, rfl, by norm_num⟩

/-- C3 amended: `migrate()` never decrements the version field of a
document whose stored numeric version is at most the current schema
version (whenever it returns, the version field is exactly the current
version, 10); a document whose version exceeds the current version is not
rejected — only the from-the-future warning is logged — but its version
field is *lowered* to the current version. -/
theorem C3_migrate_version_amended (env : Env) (o : List (String × JValue))
    (v : Int) (h : JValue.lookupField o "version" = some (.num v)) :
    (∀ out warned, migrateSettings env (.obj o) = .ok (out, warned) →
      ∃ o2, out = .obj o2 ∧
        JValue.lookupField o2 "version" = some (.num CURRENT_SETTINGS_VERSION))
    ∧ (CURRENT_SETTINGS_VERSION < v →
      migrateSettings env (.obj o) =
        .ok (.obj (JValue.setFirst o "version" (.num CURRENT_SETTINGS_VERSION)),
             true)) := by
  have hne : o ≠ [] := by
    intro he
    rw [he] at h
    simp [JValue.lookupField] at h
  constructor
  · intro out warned hm
    exact migrate_obj_ok_version env o out warned hne hm
  · intro hgt
    obtain ⟨a, l, rfl⟩ : ∃ a l, o = a :: l := by
      cases o with
      | nil => exact absurd rfl hne
      | cons a l => exact ⟨a, l, rfl⟩
    rw [migrateSettings_cons, h]
    have hrange : (CURRENT_SETTINGS_VERSION - v).toNat = 0 := by
      simp only [CURRENT_SETTINGS_VERSION] at hgt ⊢
      omega
    have hwarn : decide (v > CURRENT_SETTINGS_VERSION) = true := by
      simpa using hgt
    simp [versionOrZero, Except.bind, bind, pure, Except.pure, migrateLoop,
      hrange, JValue.propSet, hwarn]

/-- C3 witness: the amended theorem applied to the concrete from-the-future
document `\x7b version: 11 \x7d`. -/
theorem C3_amended_witness :
    migrateSettings envLinux (.obj [("version", .num 11)]) =
      .ok (.obj (JValue.setFirst [("version", JValue.num 11)] "version"
            (.num CURRENT_SETTINGS_VERSION)), true) :=
  (C3_migrate_version_amended envLinux [("version", .num 11)] 11 rfl).2
    (by norm_num [CURRENT_SETTINGS_VERSION])

/-- C4: for every stored document whose numeric version is below the
current schema version, a completed `migrate()` leaves the version field
equal to the current version (first conjunct); re-applying `migrate()` to
an already-current document returns it unchanged, with no warning (second
conjunct); and an empty or non-object document yields the empty tree
immediately (third conjunct). -/
theorem C4_migrate_version_current_and_idempotent :
    (∀ (env : Env) (o : List (String × JValue)) (v : Int) (out : JValue)
        (warned : Bool),
      JValue.lookupField o "version" = some (.num v) →
      v < CURRENT_SETTINGS_VERSION →
      migrateSettings env (.obj o) = .ok (out, warned) →
      ∃ o2, out = .obj o2 ∧
        JValue.lookupField o2 "version" = some (.num CURRENT_SETTINGS_VERSION))
    ∧ (∀ (env : Env) (o : List (String × JValue)),
      JValue.lookupField o "version" = some (.num CURRENT_SETTINGS_VERSION) →
      migrateSettings env (.obj o) = .ok (.obj o, false))
    ∧ (∀ (env : Env) (v : JValue), emptyOrNonObjectDoc v = true →
      migrateSettings env v = .ok (JValue.emptyObj, false)) := by
  refine ⟨?_, ?_, ?_⟩
  · intro env o v out warned h _ hm
    have hne : o ≠ [] := by
      intro he
      rw [he] at h
      simp [JValue.lookupField] at h
    exact migrate_obj_ok_version env o out warned hne hm
  · intro env o h
    have hne : o ≠ [] := by
      intro he
      rw [he] at h
      simp [JValue.lookupField] at h
    obtain ⟨a, l, rfl⟩ : ∃ a l, o = a :: l := by
      cases o with
      | nil => exact absurd rfl hne
      | cons a l => exact ⟨a, l, rfl⟩
    rw [migrateSettings_cons, h]
    have hset := setFirst_self (a :: l) "version"
      (.num CURRENT_SETTINGS_VERSION) h
    simp only [CURRENT_SETTINGS_VERSION] at hset
    simp [versionOrZero, Except.bind, bind, pure, Except.pure, migrateLoop,
      CURRENT_SETTINGS_VERSION, JValue.propSet, hset]
  · intro env v hv
    cases v with
    | obj o => cases o with
      | nil => rfl
      | cons a l => simp [emptyOrNonObjectDoc] at hv
    | arr xs => cases xs with
      | nil => rfl
      | cons a l => simp [emptyOrNonObjectDoc] at hv
    | null => rfl
    | bool b => rfl
    | num n => rfl
    | str s => rfl

/-- C4 witness: the three conjuncts at concrete documents — a version-9
document (migrator 9 runs, then the version becomes 10), the already-
current document `\x7b version: 10, zz: true \x7d`, and the non-object
document `5`. -/
theorem C4_witness :
    (∃ o2, JValue.obj [("version", JValue.num 10),
        ("experimental", .obj [("virtualMachine", .obj [("proxy",
          .obj [("noproxy", .arr [])])])])] = .obj o2 ∧
      JValue.lookupField o2 "version" = some (.num CURRENT_SETTINGS_VERSION))
    ∧ migrateSettings envLinux (.obj [("version", .num 10), ("zz", .bool true)]) =
        .ok (.obj [("version", .num 10), ("zz", .bool true)], false)
    ∧ migrateSettings envLinux (.num 5) = .ok (JValue.emptyObj, false) :=
  ⟨C4_migrate_version_current_and_idempotent.1 envLinux
      [("version", .num 9), ("experimental", .obj [("virtualMachine",
        .obj [("proxy", .obj [("noproxy", .arr [])])])])] 9 _ false rfl
      (by norm_num [CURRENT_SETTINGS_VERSION]) rfl,
   C4_migrate_version_current_and_idempotent.2.1 envLinux
      [("version", .num 10), ("zz", .bool true)] rfl,
   C4_migrate_version_current_and_idempotent.2.2 envLinux (.num 5) rfl⟩

theorem finishRetval_errors_unmodified (acc : ValidatorReturn)
    (h : (finishRetval acc).errors ≠ []) : (finishRetval acc).modified = false := by
  have : acc.errors ≠ [] := h
  simp [finishRetval, List.isEmpty_iff, this]

theorem checkProposedSettings_errors_unmodified (merged : JValue)
    (allowed : List (String × RuleEntry)) (current : Option JValue)
    (news : JValue) (pfx : String) (r : ValidatorReturn)
    (h : checkProposedSettings merged allowed current news pfx = .ok r)
    (he : r.errors ≠ []) : r.modified = false := by
  cases news with
  | obj o =>
    rw [show checkProposedSettings merged allowed current (.obj o) pfx =
        (cpsFields merged allowed current o pfx {}).bind
          (fun acc => .ok (finishRetval acc)) from rfl] at h
    rcases hc : cpsFields merged allowed current o pfx {} with e | acc <;>
      rw [hc] at h <;> simp [Except.bind] at h
    rw [← h] at he ⊢
    exact finishRetval_errors_unmodified acc he
  | arr xs =>
    rw [show checkProposedSettings merged allowed current (.arr xs) pfx =
        (cpsElems merged allowed current 0 xs pfx {}).bind
          (fun acc => .ok (finishRetval acc)) from rfl] at h
    rcases hc : cpsElems merged allowed current 0 xs pfx {} with e | acc <;>
      rw [hc] at h <;> simp [Except.bind] at h
    rw [← h] at he ⊢
    exact finishRetval_errors_unmodified acc he
  | null => simp [checkProposedSettings] at h; rw [← h] at he; simp [finishRetval] at he
  | bool b => simp [checkProposedSettings] at h; rw [← h] at he; simp [finishRetval] at he
  | num n => simp [checkProposedSettings] at h; rw [← h] at he; simp [finishRetval] at he
  | str s => simp [checkProposedSettings] at h; rw [← h] at he; simp [finishRetval] at he

/-- C7: a `ValidationResult` whose errors list is non-empty always has
`modified = false` — the walker's final
`retval.modified &&= retval.errors.length === 0` masks it (first
conjunct, and its instantiations to the user and transient validators);
and `ValidatorReturn.merge` ORs the `modified` and `fatal` flags and
concatenates the error lists (last conjunct). -/
theorem C7_errors_force_unmodified :
    (∀ (merged : JValue) (allowed : List (String × RuleEntry))
        (current : Option JValue) (news : JValue) (pfx : String)
        (r : ValidatorReturn),
      checkProposedSettings merged allowed current news pfx = .ok r →
      r.errors ≠ [] → r.modified = false)
    ∧ (∀ (env : Env) (current news : JValue) (r : ValidatorReturn),
      validateUserSettings env current news = .ok r →
      r.errors ≠ [] → r.modified = false)
    ∧ (∀ (env : Env) (current news : JValue) (r : ValidatorReturn),
      validateTransientSettings env current news = .ok r →
      r.errors ≠ [] → r.modified = false)
    ∧ (∀ a b : ValidatorReturn, a.merge b =
        { modified := a.modified || b.modified, errors := a.errors ++ b.errors,
          fatal := a.fatal || b.fatal }) := by
  refine ⟨checkProposedSettings_errors_unmodified, ?_, ?_, fun a b => rfl⟩
  · intro env current news r h he
    exact checkProposedSettings_errors_unmodified _ _ _ _ _ _ h he
  · intro env current news r h he
    exact checkProposedSettings_errors_unmodified _ _ _ _ _ _ h he

/-- C7 witness: the user validator rejects the unsupported field `bogus`
with one error, and the theorem forces `modified = false` there. -/
theorem C7_witness :
    validateUserSettings envLinux JValue.emptyObj (.obj [("bogus", .num 1)]) =
      .ok { errors := [notSupportedMsg "bogus"] }
    ∧ ([notSupportedMsg "bogus"] : List String) ≠ []
    ∧ (ValidatorReturn.modified { errors := [notSupportedMsg "bogus"] }) = false :=
  ⟨rfl, by simp,
   C7_errors_force_unmodified.2.1 envLinux JValue.emptyObj
     (.obj [("bogus", .num 1)]) { errors := [notSupportedMsg "bogus"] }
     rfl (by simp)⟩

theorem lodashGetPath_setPath_two (o : List (String × JValue))
    (k1 k2 : String) (v : JValue) :
    JValue.lodashGetPath (JValue.lodashSetPath (.obj o) [k1, k2] v) [k1, k2] =
      some v := by
  cases hl : JValue.lookupField o k1 with
  | none =>
    simp [JValue.lodashSetPath, hl, JValue.lodashGetPath,
      lookupField_setFirst_self, JValue.emptyObj]
  | some v2 =>
    cases v2 <;>
      simp [JValue.lodashSetPath, hl, JValue.lodashGetPath,
        lookupField_setFirst_self, JValue.emptyObj]

/-- C9: a missing settings file (ENOENT) is not an error — `load()`
completes, the User layer still reads as the empty tree, and the one
sanctioned cross-layer side effect sets the Transient layer's
`application.isFirstRun` to `true` through its unchecked `set` (first
conjunct, for any starting transient tree); the unloaded User layer's
`getAll` is the empty tree (second conjunct); and every other read
failure propagates to the caller unmodified (third conjunct). -/
theorem C9_missing_file_is_first_run :
    (∀ (env : Env) (o : List (String × JValue)),
      userLoad env (.error .enoent) ⟨none⟩ ⟨.obj o⟩ =
        .ok (⟨none⟩,
          ⟨JValue.lodashSetPath (.obj o) ["application", "isFirstRun"]
            (.bool true)⟩)
      ∧ transientGet
          ⟨JValue.lodashSetPath (.obj o) ["application", "isFirstRun"]
            (.bool true)⟩
          "application.isFirstRun" = some (.bool true))
    ∧ userGetAll ⟨none⟩ = JValue.emptyObj
    ∧ (∀ (env : Env) (msg : String) (ust : UserState) (tst : TransientState),
      userLoad env (.error (.other msg)) ust tst = .error (.fs (.other msg))) := by
  refine ⟨fun env o => ⟨rfl, ?_⟩, rfl, fun env msg ust tst => rfl⟩
  have h := lodashGetPath_setPath_two o "application" "isFirstRun" (.bool true)
  simpa [transientGet, show splitKey "application.isFirstRun" =
    ["application", "isFirstRun"] from rfl] using h

/-- C8: `checkUniqueStringArray` detects duplicates by case-sensitive
exact match and reports them sorted with the locale-aware comparator, with
whitespace-only entries special-cased.  For every comparator, current
value and merged tree: on `["a","b","a"]` exactly the one duplicate `"a"`
is reported; on `["a"," ","b","\t"]` `findDuplicates` collects exactly the
two whitespace-only entries `[" ", "\t"]`, and the error message lists
them in comparator order; and on `["a"," ","b"]` (a single whitespace-only
entry) zero duplicates are reported. -/
theorem C8_unique_string_array_duplicates :
    (∀ (env : Env) (merged : JValue) (cur : Option JValue),
      checkUniqueStringArray env merged cur
          (.arr [.str "a", .str "b", .str "a"]) "p" =
        .ok { errors := ["field \"p\" has duplicate entries: \"a\""] })
    ∧ findDuplicates ["a", " ", "b", "\t"] = [" ", "\t"]
    ∧ (∀ (env : Env) (merged : JValue) (cur : Option JValue),
      ∃ l, (l = [" ", "\t"] ∨ l = ["\t", " "]) ∧
        checkUniqueStringArray env merged cur
            (.arr [.str "a", .str " ", .str "b", .str "\t"]) "p" =
          .ok { errors := ["field \"p\" has duplicate entries: \"" ++
                  String.intercalate "\", \"" l ++ "\""] })
    ∧ findDuplicates ["a", " ", "b"] = []
    ∧ (∀ (env : Env) (merged : JValue),
      checkUniqueStringArray env merged (some (.arr []))
          (.arr [.str "a", .str " ", .str "b"]) "p" =
        .ok { modified := true }) := by
  refine ⟨fun env merged cur => rfl, rfl, fun env merged cur => ?_,
    rfl, fun env merged => rfl⟩
  by_cases h : env.collatorCompare " " "\t" ≤ 0
  · exact ⟨[" ", "\t"], Or.inl rfl, by
      simp [checkUniqueStringArray, findDuplicates, findDuplicatesLoop,
        isWhiteSpaceOnly, jsSortBy, jsSortInsert, h]⟩
  · exact ⟨["\t", " "], Or.inr rfl, by
      simp [checkUniqueStringArray, findDuplicates, findDuplicatesLoop,
        isWhiteSpaceOnly, jsSortBy, jsSortInsert, h]⟩

/-- C5 counterexample: `validateSettings` *can* throw.  Against the empty
current tree, the nested proposal
`\x7b kubernetes: \x7b options: \x7b traefik: true \x7d \x7d \x7d` makes
`checkProposedSettings` read `currentSettings['options']` of the
`undefined` current subtree at `kubernetes` (validator.ts line 77), which
raises a TypeError instead of returning a `ValidationResult`. -/
theorem C5_counterexample_validate_throws :
    validateUserSettings envLinux JValue.emptyObj
        (.obj [("kubernetes", .obj [("options", .obj [("traefik", .bool true)])])]) =
      .error (.typeError "Cannot read properties of undefined (reading options)") :=
  rfl

/-- C5 amended: `validateSettings` returns a `ValidationResult` except
that it can throw a TypeError when the current tree lacks an object at an
ancestor of a proposed nested path (see the counterexample).  The
canonicalization pre-pass itself behaves as claimed: for every proposed
leaf not handled by a synonym function, the value is rewritten exactly
when the Hard-Defaults value at the same path is a boolean or a number —
by the boolean coercion and the number coercion respectively, and is left
unchanged otherwise (first conjunct); the boolean coercion only turns the
strings `"true"`/`"false"` into real booleans (second conjunct), and the
number coercion only turns `parseInt`-parsable strings into numbers
(third conjunct). -/
theorem C5_canonicalization_scope :
    (∀ (env : Env) (tbl : List (String × SynEntry))
        (o : List (String × JValue)) (pfxPath : List String) (k : String)
        (v : JValue),
      JValue.lookupField o k = some v →
      v.typeofObject = false →
      (match lookupSyn tbl k with
        | some (.fn _) => False
        | _ => True) →
      JValue.lookupField (canonFields env tbl o pfxPath) k =
        some (match settingsLayerDefaultsGet env (pfxPath ++ [k]) with
          | some (.bool _) => canonicalizeBool v
          | some (.num _) => canonicalizeNumber v
          | _ => v))
    ∧ (∀ w : JValue, canonicalizeBool w = w ∨
        (w = .str "true" ∧ canonicalizeBool w = .bool true) ∨
        (w = .str "false" ∧ canonicalizeBool w = .bool false))
    ∧ (∀ w : JValue, canonicalizeNumber w = w ∨
        ∃ s n, w = .str s ∧ jsParseInt s = some n ∧
          canonicalizeNumber w = .num n) := by
  refine ⟨?_, ?_, ?_⟩
  · intro env tbl o pfxPath k v hv hleaf hnofn
    induction o with
    | nil => simp [JValue.lookupField] at hv
    | cons hd tl ih =>
      obtain ⟨k2, v2⟩ := hd
      by_cases hk : k2 = k
      · subst hk
        simp [JValue.lookupField] at hv
        subst hv
        rcases hsyn : lookupSyn tbl k2 with _ | e
        · simp [canonFields, JValue.lookupField, hleaf, hsyn]
        · cases e with
          | fn f => rw [hsyn] at hnofn; exact absurd hnofn (by simp)
          | node entries => simp [canonFields, JValue.lookupField, hleaf, hsyn]
      · simp [JValue.lookupField, hk] at hv
        simp [canonFields, JValue.lookupField, hk, ih hv]
  · intro w
    unfold canonicalizeBool
    split
    · exact Or.inr (Or.inl ⟨rfl, rfl⟩)
    · exact Or.inr (Or.inr ⟨rfl, rfl⟩)
    · exact Or.inl rfl
  · intro w
    unfold canonicalizeNumber
    split
    · rename_i s
      rcases hp : jsParseInt s with _ | n
      · simp [hp]
      · exact Or.inr ⟨s, n, rfl, hp, by simp [hp]⟩
    · exact Or.inl rfl

/-- C5 witness: the amended theorem at the proposed leaf
`application.debug = "true"`, whose Hard-Defaults value is a boolean — the
pre-pass coerces the string to the boolean `true`. -/
theorem C5_witness :
    JValue.lookupField
        (canonFields envLinux synonymsTable [("debug", .str "true")]
          ["application"]) "debug" = some (.bool true) := by
  have h := C5_canonicalization_scope.1 envLinux synonymsTable
    [("debug", .str "true")] ["application"] "debug" (.str "true")
    rfl rfl trivial
  exact h

/-- The proposal `\x7b path: value \x7d`: the value wrapped in singleton
objects along the key path. -/
def singletonProposal : List String → JValue → JValue
  | [], v => v
  | k :: rest, v => .obj [(k, singletonProposal rest v)]

/-- The value of a tree at a key path, descending through objects only
(`T[path]` for a path every proper prefix of which is an object of `T`). -/
def atObjPath : JValue → List String → Option JValue
  | v, [] => some v
  | .obj o, k :: rest => (JValue.lookupField o k).bind (atObjPath · rest)
  | _, _ :: _ => none

/-- The rule-map entry reached by a key path. -/
def rulePathEntry : List (String × RuleEntry) → List String → Option RuleEntry
  | _, [] => none
  | rt, [k] => lookupRule rt k
  | rt, k :: rest =>
    match lookupRule rt k with
    | some (.node sub) => rulePathEntry sub rest
    | _ => none

/-- Whether a key path reaches a leaf rule (a validator function). -/
def isLeafRuleAt (rt : List (String × RuleEntry)) (path : List String) : Bool :=
  match rulePathEntry rt path with
  | some (.leaf _) => true
  | _ => false

theorem checkProposedSettings_obj (merged : JValue)
    (rt : List (String × RuleEntry)) (current : Option JValue)
    (o : List (String × JValue)) (pfx : String) :
    checkProposedSettings merged rt current (.obj o) pfx =
      (cpsFields merged rt current o pfx {}).bind
        (fun acc => .ok (finishRetval acc)) := rfl

theorem cpsFields_cons_node (merged : JValue) (rt : List (String × RuleEntry))
    (current : Option JValue) (k : String) (newV : JValue)
    (rest : List (String × JValue)) (pfx : String) (acc : ValidatorReturn)
    (sub : List (String × RuleEntry))
    (hrt : lookupRule rt k = some (.node sub))
    (hobj : newV.typeofObject = true) :
    cpsFields merged rt current ((k, newV) :: rest) pfx acc = (do
      let curK ← JValue.propGet current k
      let r ← checkProposedSettings merged sub curK newV
        (if pfx = "" then k else pfx ++ "." ++ k)
      cpsFields merged rt current rest pfx (acc.merge r)) := by
  simp only [cpsFields, hrt, hobj]
  rfl

theorem cpsFields_cons_leaf (merged : JValue) (rt : List (String × RuleEntry))
    (current : Option JValue) (k : String) (newV : JValue)
    (rest : List (String × JValue)) (pfx : String) (acc : ValidatorReturn)
    (f : RuleFn) (hrt : lookupRule rt k = some (.leaf f)) :
    cpsFields merged rt current ((k, newV) :: rest) pfx acc = (do
      let curK ← JValue.propGet current k
      let acc2 ←
        if eqGuard curK newV then Except.ok acc
        else do
          let r ← f merged curK newV (if pfx = "" then k else pfx ++ "." ++ k)
          Except.ok (acc.merge r)
      cpsFields merged rt current rest pfx acc2) := by
  simp only [cpsFields, hrt]

theorem cps_singleton_skip : ∀ (path : List String) (merged : JValue)
    (rt : List (String × RuleEntry)) (T v : JValue) (pfx : String),
    isLeafRuleAt rt path = true → atObjPath T path = some v →
    checkProposedSettings merged rt (some T) (singletonProposal path v) pfx =
      .ok {}
  | [] => by
    intro merged rt T v pfx hrule hat
    simp [isLeafRuleAt, rulePathEntry] at hrule
  | [k] => by
    intro merged rt T v pfx hrule hat
    cases T with
    | obj o =>
      simp only [atObjPath] at hat
      rcases hlk : JValue.lookupField o k with _ | T1 <;> rw [hlk] at hat <;>
        simp [atObjPath] at hat
      subst hat
      rcases hrt : lookupRule rt k with _ | e
      · simp [isLeafRuleAt, rulePathEntry, hrt] at hrule
      · cases e with
        | node sub => simp [isLeafRuleAt, rulePathEntry, hrt] at hrule
        | leaf f =>
          rw [show singletonProposal [k] T1 = .obj [(k, T1)] from rfl,
            checkProposedSettings_obj,
            cpsFields_cons_leaf merged rt (some (.obj o)) k T1 [] pfx {} f hrt]
          simp [JValue.propGet, hlk, eqGuard, jvEq_refl, cpsFields,
            finishRetval, bind, Except.bind, pure, Except.pure]
    | null => simp [atObjPath] at hat
    | bool b => simp [atObjPath] at hat
    | num n => simp [atObjPath] at hat
    | str s => simp [atObjPath] at hat
    | arr xs => simp [atObjPath] at hat
  | k :: k2 :: rest => by
    intro merged rt T v pfx hrule hat
    cases T with
    | obj o =>
      simp only [atObjPath] at hat
      rcases hlk : JValue.lookupField o k with _ | T1 <;> rw [hlk] at hat <;>
        simp at hat
      rcases hrt : lookupRule rt k with _ | e
      · simp [isLeafRuleAt, rulePathEntry, hrt] at hrule
      · cases e with
        | leaf f => simp [isLeafRuleAt, rulePathEntry, hrt] at hrule
        | node sub =>
          have hrule2 : isLeafRuleAt sub (k2 :: rest) = true := by
            simpa [isLeafRuleAt, rulePathEntry, hrt] using hrule
          have ih := cps_singleton_skip (k2 :: rest) merged sub T1 v
            (if pfx = "" then k else pfx ++ "." ++ k) hrule2 hat
          have hobj : JValue.typeofObject (singletonProposal (k2 :: rest) v) =
              true := by
            simp [singletonProposal, JValue.typeofObject]
          rw [show singletonProposal (k :: k2 :: rest) v =
              .obj [(k, singletonProposal (k2 :: rest) v)] from rfl,
            checkProposedSettings_obj,
            cpsFields_cons_node merged rt (some (.obj o)) k
              (singletonProposal (k2 :: rest) v) [] pfx {} sub hrt hobj]
          rw [show JValue.propGet (some (.obj o)) k =
              .ok (JValue.lookupField o k) from rfl, hlk]
          simp [bind, Except.bind, ih, cpsFields, ValidatorReturn.merge,
            finishRetval, pure, Except.pure]
    | null => simp [atObjPath] at hat
    | bool b => simp [atObjPath] at hat
    | num n => simp [atObjPath] at hat
    | str s => simp [atObjPath] at hat
    | arr xs => simp [atObjPath] at hat

/-- C6 counterexample: an identical-value proposal that is *not* accepted
as unmodified.  With the stored kubernetes version `"v1.30.0"`, proposing
the very value at that path runs the `kubernetes.version` *synonym*
function first (userValidator.ts `canonicalizeSynonyms`), which strips the
leading `v`; the canonicalized `"1.30.0"` is no longer `_.isEqual` to the
current `"v1.30.0"`, so the rule runs and reports `modified: true` — not
the `\x7b modified: false, errors: [] \x7d` the claim promises for every
path of every tree. -/
theorem C6_counterexample_canonicalization_breaks_skip :
    (JValue.lodashGetPath
        (JValue.lmergeInto (defaultSettings envLinux)
          (.obj [("kubernetes", .obj [("version", .str "v1.30.0")])]))
        ["kubernetes", "version"] = some (.str "v1.30.0"))
    ∧ (validateUserSettings envLinux
        (JValue.lmergeInto (defaultSettings envLinux)
          (.obj [("kubernetes", .obj [("version", .str "v1.30.0")])]))
        (.obj [("kubernetes", .obj [("version", .str "v1.30.0")])]) =
      .ok { modified := true })
    ∧ ({ modified := true } : ValidatorReturn) ≠ ({} : ValidatorReturn) := by
  refine ⟨rfl, rfl, by decide⟩

/-- C6 amended: the deep-equal skip holds for proposals the
canonicalization pre-pass leaves unchanged.  First conjunct: the walker
`checkProposedSettings` (validator.ts lines 86 and 97) returns
`\x7b modified: false, errors: [] \x7d` for every singleton proposal
`\x7b path: T[path] \x7d` whose path reaches a leaf rule — whatever the
current value is, scalar, array or object alike — never invoking the leaf
rule function; this is quantified over *any* rule tree and any `merged`
argument, so in particular over rules that would reject the value.
Second conjunct: the same for the full `validateSettings` of the user
validator, provided canonicalization leaves the proposal unchanged
(otherwise the synonym pass can rewrite the value first and defeat the
skip — see the counterexample). -/
theorem C6_identical_value_skipped :
    (∀ (merged : JValue) (rt : List (String × RuleEntry)) (T v : JValue)
        (path : List String) (pfx : String),
      isLeafRuleAt rt path = true →
      atObjPath T path = some v →
      checkProposedSettings merged rt (some T) (singletonProposal path v)
          pfx = .ok {})
    ∧ (∀ (env : Env) (T v : JValue) (path : List String),
      isLeafRuleAt (userAllowedSettings env) path = true →
      atObjPath T path = some v →
      canonicalizeSynonyms env (singletonProposal path v) =
        singletonProposal path v →
      validateUserSettings env T (singletonProposal path v) = .ok {}) := by
  refine ⟨fun merged rt T v path pfx => cps_singleton_skip path merged rt T v pfx, ?_⟩
  intro env T v path hrule hat hcanon
  show checkProposedSettings
      (JValue.lmergeAll [T, canonicalizeSynonyms env (singletonProposal path v)])
      (userAllowedSettings env) (some T)
      (canonicalizeSynonyms env (singletonProposal path v)) "" = .ok {}
  rw [hcanon]
  exact cps_singleton_skip path _ _ T v "" hrule hat

/-- C6 witness: with the stored pattern list
`containerEngine.allowedImages.patterns = ["a", "a"]` — a legacy value
with duplicates that `checkUniqueStringArray` would reject — proposing
the identical list returns `\x7b modified: false, errors: [] \x7d`
without the rule ever running. -/
theorem C6_witness :
    validateUserSettings envLinux
        (JValue.lmergeInto (defaultSettings envLinux)
          (.obj [("containerEngine", .obj [("allowedImages", .obj
            [("patterns", .arr [.str "a", .str "a"])])])]))
        (singletonProposal ["containerEngine", "allowedImages", "patterns"]
          (.arr [.str "a", .str "a"])) =
      .ok {} :=
  C6_identical_value_skipped.2 envLinux
    (JValue.lmergeInto (defaultSettings envLinux)
      (.obj [("containerEngine", .obj [("allowedImages", .obj
        [("patterns", .arr [.str "a", .str "a"])])])]))
    (.arr [.str "a", .str "a"])
    ["containerEngine", "allowedImages", "patterns"] (by rfl) (by rfl) (by rfl)
